import Mathlib

/-!
Verification of the DigiRaksha backend against its natural-language
specification.  The Python sources are embedded shallowly:

* machine floats used as decimal score accumulators are modelled as `ℚ`;
* Python strings are modelled as `String` / `List Char`;
* Python dicts that preserve insertion order are modelled as association
  lists (`List (key × value)`);
* external ML models (sentence embeddings, `SequenceMatcher.ratio`,
  VADER/TextBlob sentiment, the transformer emotion classifier) are
  abstracted as function parameters, since their numeric output is opaque
  to the code under verification;
* `datetime.now()` timestamps are omitted from the embedded records: no
  verified claim mentions them.
-/

namespace DigiRaksha

/-! ## Basic character and string utilities (Python semantics) -/

/-- Lower-casing of a single character, as `str.lower` does for ASCII. -/
def lowc (c : Char) : Char := c.toLower

/-- Word character on a lower-cased character: `[a-z0-9_]`. -/
def wordLower (d : Char) : Bool :=
  (decide ('a' ≤ d) && decide (d ≤ 'z')) || (decide ('0' ≤ d) && decide (d ≤ '9')) || d == '_'

/-- Python regex `\w` test, written through `lowc` so that two characters
that agree case-insensitively are word characters together. -/
def isWordChar (c : Char) : Bool := wordLower (lowc c)

/-- Python regex `\s` test (ASCII whitespace as used by the repository's
texts). -/
def isPyWS (c : Char) : Bool :=
  c == ' ' || c == '\t' || c == '\n' || c == '\x0d' || c == '\x0b' || c == '\x0c'

/-- Case-insensitive character equality (`re.IGNORECASE`). -/
def ciEq (a b : Char) : Bool := lowc a == lowc b

/-- Exact prefix test on character lists. -/
def startsList : List Char → List Char → Bool
  | [], _ => true
  | _ :: _, [] => false
  | a :: as, b :: bs => a == b && startsList as bs

/-- Python substring containment `sub in text` on character lists. -/
def hasSub (sub : List Char) : List Char → Bool
  | [] => startsList sub []
  | c :: cs => startsList sub (c :: cs) || hasSub sub cs

/-- Python `sub in text` on strings. -/
def pyIn (sub text : String) : Bool := hasSub sub.data text.data

/-- Python `str.strip()`: drop leading and trailing whitespace. -/
def stripList (l : List Char) : List Char :=
  ((l.dropWhile isPyWS).reverse.dropWhile isPyWS).reverse

/-- Python `str.strip()` on strings. -/
def pyStrip (s : String) : String := ⟨stripList s.data⟩

/-- Python `str.lower()` on strings. -/
def pyLower (s : String) : String := ⟨s.data.map lowc⟩

/-! Matching of the repository's phrase regexes.  Every phrase pattern in
the source is a sequence of literal segments joined by `\s*` (for example
`r'i\s*am\s*scared'` is the segments `i`, `am`, `scared`).  Because each
segment begins with a non-whitespace character, a `\s*` gap must consume
exactly the run of whitespace in front of the next segment, so greedy
whitespace skipping is an exact implementation of these patterns. -/

/-- Match a `\s*`-joined sequence of literal segments at the head of the
text. -/
def matchSegs : List (List Char) → List Char → Bool
  | [], _ => true
  | [seg], t => startsList seg t
  | seg :: rest, t =>
      startsList seg t && matchSegs rest ((t.drop seg.length).dropWhile isPyWS)

/-- Python `re.search` for a `\s*`-joined literal pattern: try every start
position. -/
def searchSegs (segs : List (List Char)) : List Char → Bool
  | [] => matchSegs segs []
  | c :: cs => matchSegs segs (c :: cs) || searchSegs segs cs

/-- Convenience: a phrase given as segment strings, searched in a text. -/
def searchPhrase (segs : List String) (t : List Char) : Bool :=
  searchSegs (segs.map String.data) t

/-! ## `enhanced_emotional_intelligence.py` -/

/-- Embedded `EmotionAnalysis` dataclass.  Scores are `ℚ`. -/
structure EmotionAnalysis where
  primary_emotion : String
  confidence : ℚ
  secondary_emotions : List (String × ℚ)
  sentiment_score : ℚ
  emotional_intensity : ℚ
  urgency_level : String
  support_type_needed : String
  recommended_response_tone : String
deriving Repr, DecidableEq

/-- One entry of the `emotion_patterns` table: keywords, phrase patterns
(each a `\s*`-joined list of literal segments) and intensity indicators. -/
structure EmotionPatternEntry where
  keywords : List String
  phrases : List (List String)
  intensity_indicators : List String

/-- The `emotion_patterns` table, in source (insertion) order. -/
def emotion_patterns : List (String × EmotionPatternEntry) :=
  [ ("fear",
     ⟨["scared", "afraid", "terrified", "frightened", "panic", "worried", "nervous"],
      [["i", "am", "scared"], ["so", "afraid"], ["really", "worried"], ["panicking"]],
      ["very", "so", "extremely", "really", "completely"]⟩),
    ("anger",
     ⟨["angry", "furious", "mad", "frustrated", "irritated", "annoyed"],
      [["so", "angry"], ["really", "mad"], ["frustrated", "with"]],
      ["very", "so", "extremely", "really", "absolutely"]⟩),
    ("sadness",
     ⟨["sad", "depressed", "devastated", "heartbroken", "disappointed", "upset"],
      [["feel", "sad"], ["so", "disappointed"], ["really", "upset"]],
      ["very", "so", "extremely", "deeply", "completely"]⟩),
    ("anxiety",
     ⟨["anxious", "stressed", "overwhelmed", "confused", "helpless"],
      [["feeling", "anxious"], ["so", "stressed"], ["completely", "lost"]],
      ["very", "so", "extremely", "really", "totally"]⟩),
    ("hope",
     ⟨["hope", "optimistic", "positive", "confident", "better"],
      [["hope", "everything"], ["feeling", "better"], ["more", "confident"]],
      ["very", "much", "really", "quite", "fairly"]⟩),
    ("gratitude",
     ⟨["thank", "grateful", "appreciate", "helped", "wonderful"],
      [["thank", "you"], ["really", "appreciate"], ["so", "helpful"]],
      ["very", "so", "really", "truly", "deeply"]⟩) ]

/-- The per-emotion `confidence` accumulation of `analyze_text_emotions`
(lines 182-197): `+0.3` per keyword contained in the lowered text, `+0.4`
per phrase-pattern hit, `+0.2` per intensity indicator contained. -/
def emotionConfidence (p : EmotionPatternEntry) (tl : List Char) : ℚ :=
  let c1 := p.keywords.foldl
    (fun c kw => if hasSub kw.data tl then c + 3/10 else c) 0
  let c2 := p.phrases.foldl
    (fun c ph => if searchPhrase ph tl then c + 4/10 else c) c1
  p.intensity_indicators.foldl
    (fun c iw => if hasSub iw.data tl then c + 2/10 else c) c2

/-- State of the pattern-detection loop: detected emotions (insertion
ordered, scores capped at 1), current primary emotion, current maximal
uncapped confidence. -/
def emotionLoopStep (tl : List Char)
    (st : List (String × ℚ) × String × ℚ) (e : String × EmotionPatternEntry) :
    List (String × ℚ) × String × ℚ :=
  let conf := emotionConfidence e.2 tl
  if conf > 0 then
    let detected := st.1 ++ [(e.1, min conf 1)]
    if conf > st.2.2 then (detected, e.1, conf) else (detected, st.2.1, st.2.2)
  else st

/-- The `for emotion, patterns in self.emotion_patterns.items()` loop of
`analyze_text_emotions` (lines 180-203). -/
def emotionLoop (tl : List Char) : List (String × ℚ) × String × ℚ :=
  emotion_patterns.foldl (emotionLoopStep tl) ([], "neutral", 0)

/-- The `urgency_patterns` table, in source order (high, medium, low);
each pattern is a `\s*`-joined list of literal segments. -/
def urgency_patterns : List (String × List (List String)) :=
  [ ("high",
     [["emergency"], ["urgent"], ["immediately"], ["right", "now"], ["asap"],
      ["can\x27t", "wait"], ["happening", "now"], ["need", "help", "now"],
      ["losing", "money"], ["account", "hacked"], ["fraud", "happening"]]),
    ("medium",
     [["soon"], ["quickly"], ["worried"], ["concerned"], ["need", "help"],
      ["what", "should", "i", "do"], ["advice"], ["guidance"]]),
    ("low",
     [["sometime"], ["eventually"], ["when", "possible"], ["curious"],
      ["wondering"], ["interested"]]) ]

/-- `_determine_urgency`: first urgency level whose pattern list has a
`re.search` hit, else `'low'`. -/
def determineUrgency (tl : List Char) : String :=
  match urgency_patterns.find? (fun up => up.2.any (fun ph => searchPhrase ph tl)) with
  | some up => up.1
  | none => "low"

/-- The `support_indicators` table, in source order. -/
def support_indicators : List (String × List (List String)) :=
  [ ("emotional",
     [["scared"], ["afraid"], ["worried"], ["sad"], ["upset"], ["devastated"],
      ["feeling"], ["emotion"], ["comfort"], ["support"], ["help", "me", "feel"]]),
    ("informational",
     [["what", "is"], ["how", "to"], ["explain"], ["understand"], ["learn"],
      ["information"], ["details"], ["guidelines"], ["rules"]]),
    ("procedural",
     [["what", "should", "i", "do"], ["steps"], ["process"], ["how", "do", "i"],
      ["procedure"], ["action"], ["next"], ["report"], ["file"]]) ]

/-- One comparison step of Python `max` over dict items keyed by value:
keep the incumbent unless the candidate is strictly greater, so the first
maximal element wins. -/
def maxStep {α : Type} [LinearOrder α] (b p : String × α) : String × α :=
  if p.2 > b.2 then p else b

/-- Python `max(assoc, key=assoc.get)` over an insertion-ordered dict:
returns the first key attaining the maximal value (`max` keeps the
earliest maximal element).  Total via a default for the empty dict, which
the callers all guard against. -/
def pyMaxKey {α : Type} [LinearOrder α] (l : List (String × α)) (dflt : String) : String :=
  match l with
  | [] => dflt
  | kv :: rest => (rest.foldl maxStep kv).1

/-- `_determine_support_type`: per-type count of pattern hits, dict of
positive scores, then `max(scores, key=scores.get)`, default
`'informational'`. -/
def determineSupportType (tl : List Char) : String :=
  let scores := support_indicators.foldl
    (fun acc sp =>
      let s := sp.2.foldl (fun n ph => if searchPhrase ph tl then n + 1 else n) 0
      if s > 0 then acc ++ [(sp.1, (s : ℚ))] else acc) []
  match scores with
  | [] => "informational"
  | _ => pyMaxKey scores "informational"

/-- `_determine_response_tone` (lines 321-336). -/
def determineResponseTone (emotion : String) (sentiment : ℚ) (urgency : String) : String :=
  if (["fear", "anxiety", "sadness"] : List String).contains emotion && urgency == "high" then
    "emergency_supportive"
  else if (["fear", "anxiety", "sadness"] : List String).contains emotion then
    "empathetic"
  else if (["anger", "frustration"] : List String).contains emotion then
    "calming"
  else if (["hope", "gratitude"] : List String).contains emotion then
    "encouraging"
  else if sentiment > 3/10 then
    "positive"
  else if sentiment < -(3/10) then
    "supportive"
  else
    "neutral"

/-- `analyze_text_emotions` (lines 168-283) in its default configuration:
no transformer emotion classifier is loaded (the optional branch at lines
206-241 is skipped), and the VADER/TextBlob sentiment chain (lines
243-258) is abstracted by the `sent` parameter, since its value comes from
an external library.  The pattern analysis itself is concrete. -/
def analyze_text_emotions (sent : String → ℚ) (text : String) : EmotionAnalysis :=
  let tl := (pyLower text).data
  let st := emotionLoop tl
  let sentiment := sent text
  let urgency := determineUrgency tl
  let support := determineSupportType tl
  let intensity := st.2.2
  ⟨st.2.1, st.2.2, st.1, sentiment, intensity, urgency, support,
   determineResponseTone st.2.1 sentiment urgency⟩

/-- The neutral `EmotionAnalysis` returned by the `except` branch of
`analyze_text_emotions` (lines 285-296). -/
def neutralAnalysis : EmotionAnalysis :=
  ⟨"neutral", 0, [], 0, 0, "low", "informational", "neutral"⟩

/-! ### Conversation context (lines 338-431) -/

/-- One entry of `conversation_history` (the `datetime.now()` timestamp is
omitted). -/
structure ConvEntry where
  user_message : String
  ai_response : String
  emotion_analysis : EmotionAnalysis
deriving Repr, DecidableEq

/-- Embedded `ConversationContext` for a single user (`user_preferences`
and the `last_interaction` timestamp are omitted: no claim mentions
them). -/
structure ConversationContextS where
  conversation_history : List ConvEntry
  emotional_state_history : List EmotionAnalysis
  total_interactions : Nat
deriving Repr, DecidableEq

/-- The context `get_conversation_context` creates for a fresh user. -/
def freshContext : ConversationContextS := ⟨[], [], 0⟩

/-- The `keep only last 20` truncation of `update_conversation_context`
(lines 377-380): `history[-20:]` when the length exceeds 20. -/
def keepLast20 {α : Type} (l : List α) : List α :=
  if l.length > 20 then l.drop (l.length - 20) else l

/-- `update_conversation_context` (lines 351-380) for one user's context:
append the new exchange and emotion reading, bump the counter, truncate
both histories to the 20 most recent entries. -/
def update_conversation_context (ctx : ConversationContextS)
    (user_message ai_response : String) (ea : EmotionAnalysis) :
    ConversationContextS :=
  let ch := ctx.conversation_history ++ [⟨user_message, ai_response, ea⟩]
  let eh := ctx.emotional_state_history ++ [ea]
  ⟨keepLast20 ch, keepLast20 eh, ctx.total_interactions + 1⟩

/-- Python `counts[k] = counts.get(k, 0) + 1` on an insertion-ordered
dict represented as an association list. -/
def bumpCount : List (String × Nat) → String → List (String × Nat)
  | [], k => [(k, 1)]
  | (k', v) :: rest, k =>
      if k' = k then (k', v + 1) :: rest else (k', v) :: bumpCount rest k

/-- The emotion-count dict of `get_emotional_state_summary` built over the
recent readings, in first-encounter order. -/
def emotionCounts (recent : List EmotionAnalysis) : List (String × Nat) :=
  recent.foldl (fun counts ea => bumpCount counts ea.primary_emotion) []

/-- Python slice `l[-k:]`. -/
def lastN {α : Type} (k : Nat) (l : List α) : List α := l.drop (l.length - k)

/-- Python slice `l[-a:-b]` for `0 < b < a` (used as `l[-4:-2]`). -/
def sliceNeg {α : Type} (a b : Nat) (l : List α) : List α :=
  (l.drop (l.length - a)).take ((l.length - b) - (l.length - a))

/-- Result of `get_emotional_state_summary` in the analysed case (the
`recommendations` list, produced by `_generate_emotional_recommendations`,
is not modelled: no claim mentions it). -/
structure EmotionalStateSummary where
  dominant_emotion : String
  average_intensity : ℚ
  emotion_trend : String
  needs_extra_support : Bool
  total_interactions : Nat
deriving Repr, DecidableEq

/-- `get_emotional_state_summary` (lines 382-431); `none` models the
`{'status': 'no_history'}` early return.  `recent_emotions` is the last 5
readings; the dominant emotion is `max(emotion_counts,
key=emotion_counts.get)`. -/
def get_emotional_state_summary (ctx : ConversationContextS) :
    Option EmotionalStateSummary :=
  match ctx.emotional_state_history with
  | [] => none
  | _ :: _ =>
    let recent := lastN 5 ctx.emotional_state_history
    let counts := emotionCounts recent
    let total_intensity := recent.foldl (fun s ea => s + ea.emotional_intensity) (0 : ℚ)
    let dominant := if counts.isEmpty then "neutral" else pyMaxKey counts "neutral"
    let avg := total_intensity / (recent.length : ℚ)
    let needs_support :=
      (["fear", "anxiety", "sadness"] : List String).contains dominant && avg > 6/10
    let trend :=
      if recent.length ≥ 3 then
        let recent_i := ((lastN 2 recent).foldl (fun s ea => s + ea.emotional_intensity) (0 : ℚ)) / 2
        let earlier_i := ((sliceNeg 4 2 recent).foldl (fun s ea => s + ea.emotional_intensity) (0 : ℚ)) / 2
        if recent_i > earlier_i + 2/10 then "worsening"
        else if recent_i < earlier_i - 2/10 then "improving"
        else "stable"
      else "stable"
    some ⟨dominant, avg, trend, needs_support, ctx.total_interactions⟩

/-! ## `semantic_training_engine.py` -/

/-- Embedded Q&A record (`created_at` is omitted; `category` is the
`qa_pair.get('category', 'general')` default since the ingested pairs
carry only question and answer). -/
structure QARecord where
  id : Nat
  question : String
  answer : String
  category : String
  keywords : List String
deriving Repr, DecidableEq

/-- The stop-word set of `_extract_keywords`. -/
def stop_words : List String :=
  ["the", "a", "an", "and", "or", "but", "in", "on", "at", "to", "for", "of",
   "with", "by", "is", "are", "was", "were", "can", "should", "would", "could",
   "do", "does", "did", "how", "what", "when", "where", "why", "who", "which"]

/-- First-occurrence deduplication; models `list(set(words))`.  Python's
set iteration order is unspecified, but every downstream use of the
keyword list (duplicate checks and Jaccard cardinalities) is
order-insensitive, so first-occurrence order is a sound representative. -/
def dedupFirst (l : List String) : List String :=
  l.foldl (fun acc w => if acc.contains w then acc else acc ++ [w]) []

/-- `_extract_keywords` (lines 156-166): lower-case, replace every
non-`\w`, non-`\s` character by a space, split on whitespace, keep words
longer than 2 characters that are not stop words, deduplicate. -/
def extract_keywords (text : String) : List String :=
  let cleaned : List Char :=
    (pyLower text).data.map (fun c => if isWordChar c || isPyWS c then c else ' ')
  let words := ((String.mk cleaned).split isPyWS).filter (fun w => w ≠ "")
  dedupFirst (words.filter (fun w => w.length > 2 && !stop_words.contains w))

/-- `_is_duplicate_question` (lines 148-154): compare
`lower().strip()`-normalised question texts against the stored records. -/
def is_duplicate_question (db : List QARecord) (question : String) : Bool :=
  let ql := pyStrip (pyLower question)
  db.any (fun qa => pyStrip (pyLower qa.question) == ql)

/-- One step of the `for qa_pair in qa_pairs` loop of `add_qa_pairs`
(lines 115-133): strip question and answer, skip empty ones, skip
duplicates, otherwise append a new record whose `id` is the current
database length. -/
def addQAStep (st : List QARecord × Nat) (pair : String × String) :
    List QARecord × Nat :=
  let question := pyStrip pair.1
  let answer := pyStrip pair.2
  if question ≠ "" && answer ≠ "" then
    if !is_duplicate_question st.1 question then
      (st.1 ++ [⟨st.1.length, question, answer, "general", extract_keywords question⟩],
       st.2 + 1)
    else st
  else st

/-- The full ingestion loop of `add_qa_pairs`, returning the new database
and `added_count`. -/
def addQALoop (db : List QARecord) (pairs : List (String × String)) :
    List QARecord × Nat :=
  pairs.foldl addQAStep (db, 0)

/-- Engine state relevant to ingestion: the Q&A database and the cached
question embeddings.  The embedding vectors themselves are opaque, so the
state is parametrised by their type `E`. -/
structure EngineState (E : Type) where
  qa_database : List QARecord
  question_embeddings : List E

/-- `_regenerate_embeddings` (lines 91-109): one embedding per stored
question, in database order (`embed` abstracts
`SentenceTransformer.encode`). -/
def regenerate_embeddings {E : Type} (embed : String → E)
    (db : List QARecord) : List E :=
  db.map (fun qa => embed qa.question)

/-- `add_qa_pairs` (lines 111-146): run the ingestion loop; if anything
was added, regenerate the embeddings, otherwise leave them untouched. -/
def add_qa_pairs {E : Type} (embed : String → E)
    (pairs : List (String × String)) (s : EngineState E) : EngineState E :=
  let r := addQALoop s.qa_database pairs
  if r.2 > 0 then ⟨r.1, regenerate_embeddings embed r.1⟩
  else ⟨r.1, s.question_embeddings⟩

/-- A `find_best_answer` result dict. -/
structure MatchResult where
  answer : String
  matched_question : String
  similarity_score : ℚ
  match_type : String
  confidence : String
  qa_id : Nat
deriving Repr, DecidableEq

/-- `_calculate_confidence` (lines 288-299). -/
def calculate_confidence (s : ℚ) : String :=
  if s ≥ 9/10 then "very_high"
  else if s ≥ 8/10 then "high"
  else if s ≥ 7/10 then "medium"
  else if s ≥ 6/10 then "low"
  else "very_low"

/-- `np.argmax`: index of the first maximal element. -/
def pyArgmaxAux (i bi : Nat) (bv : ℚ) : List ℚ → Nat
  | [] => bi
  | x :: xs => if x > bv then pyArgmaxAux (i + 1) i x xs else pyArgmaxAux (i + 1) bi bv xs

/-- `np.argmax` over a list of scores (the callers guard against the
empty case). -/
def pyArgmax : List ℚ → Nat
  | [] => 0
  | x :: xs => pyArgmaxAux 1 0 x xs

/-- The best-so-far fold of `_fuzzy_match_question` (lines 220-229):
strict improvement, so the first record attaining the best ratio wins.
`fuz` abstracts `SequenceMatcher(None, a, b).ratio()`. -/
def fuzzyStep (fuz : String → String → ℚ) (user_question : String)
    (b : ℚ × Option QARecord) (qa : QARecord) : ℚ × Option QARecord :=
  let r := fuz (pyLower user_question) (pyLower qa.question)
  if r > b.1 then (r, some qa) else b

/-- The fold of `_fuzzy_match_question` over the stored records. -/
def bestFuzzy (fuz : String → String → ℚ) (db : List QARecord)
    (user_question : String) : ℚ × Option QARecord :=
  db.foldl (fuzzyStep fuz user_question) (0, none)

/-- `_fuzzy_match_question` (lines 217-246): accept the best ratio when it
reaches the fuzzy threshold 0.70. -/
def fuzzy_match_question (fuz : String → String → ℚ) (db : List QARecord)
    (user_question : String) : Option MatchResult :=
  let b := bestFuzzy fuz db user_question
  if b.1 ≥ 7/10 then
    match b.2 with
    | some qa => some ⟨qa.answer, qa.question, b.1, "fuzzy", calculate_confidence b.1, qa.id⟩
    | none => none
  else none

/-- Cardinality of the intersection of two lists viewed as sets (both
arguments are deduplicated keyword lists). -/
def interCount (a b : List String) : Nat := (a.filter (fun w => b.contains w)).length

/-- Cardinality of the union of two lists viewed as sets. -/
def unionCount (a b : List String) : Nat :=
  a.length + (b.filter (fun w => !a.contains w)).length

/-- The best-so-far Jaccard fold of `_keyword_match_question` (lines
255-269): records without keywords are skipped, strict improvement. -/
def jaccardStep (user_keywords : List String)
    (b : ℚ × Option QARecord) (qa : QARecord) : ℚ × Option QARecord :=
  if qa.keywords ≠ [] then
    let j : ℚ := (interCount user_keywords qa.keywords : ℚ) /
      (unionCount user_keywords qa.keywords : ℚ)
    if j > b.1 then (j, some qa) else b
  else b

/-- The fold of `_keyword_match_question` over the stored records. -/
def bestJaccard (db : List QARecord) (user_keywords : List String) :
    ℚ × Option QARecord :=
  db.foldl (jaccardStep user_keywords) (0, none)

/-- `_keyword_match_question` (lines 248-286): Jaccard overlap of keyword
sets, acceptance threshold 0.3, confidence computed from `0.8 × score`. -/
def keyword_match_question (db : List QARecord) (user_question : String) :
    Option MatchResult :=
  let user_keywords := dedupFirst (extract_keywords user_question)
  if user_keywords = [] then none
  else
    let b := bestJaccard db user_keywords
    if b.1 ≥ 3/10 then
      match b.2 with
      | some qa =>
          some ⟨qa.answer, qa.question, b.1, "keyword",
                calculate_confidence (b.1 * (8/10)), qa.id⟩
      | none => none
    else none

/-- `find_best_answer` (lines 168-215).  `isInit` models
`self.is_initialized and self.embedding_model is not None`; `sem` is the
cosine-similarity row `cosine_similarity(user_embedding,
question_embeddings)[0]` (one abstract score per stored record, the
embedding model being external); the three tiers are tried in source
order with thresholds 0.65 / 0.70 / 0.3. -/
def find_best_answer (isInit : Bool) (db : List QARecord) (sem : List ℚ)
    (fuz : String → String → ℚ) (user_question : String) : Option MatchResult :=
  if !isInit || db.isEmpty then none
  else
    let clean_question := pyStrip user_question
    let best_match_idx := pyArgmax sem
    let best_similarity := sem.getD best_match_idx 0
    if best_similarity ≥ 65/100 then
      match db.get? best_match_idx with
      | some qa =>
          some ⟨qa.answer, qa.question, best_similarity, "semantic",
                calculate_confidence best_similarity, qa.id⟩
      | none => none
    else
      match fuzzy_match_question fuz db clean_question with
      | some r => some r
      | none => keyword_match_question db clean_question

/-! ## `advanced_ai_service.py` -/

/-- The `query_patterns` table of `AdvancedAIService.__init__`: category
names with their raw regex pattern strings, in source order.  The regex
strings are kept as data; whether `re.search(pattern, query)` hits is
abstracted by an oracle parameter in `classify_query`, because claim C5
is about the classifier's control flow, which is independent of the regex
engine. -/
def query_patterns : List (String × List String) :=
  [ ("greeting",
     ["greet-anchor", "how-are-you", "whats-up", "sup-yo", "nice-to-meet"]),
    ("casual_conversation",
     ["how-are-you-doing", "your-name", "who-are-you", "about-yourself",
      "what-do-you-do", "can-you-help"]),
    ("emotional_distress",
     ["i-am-scared", "fraud-happened-me", "lost-stolen-money", "cheated-me",
      "account-hacked", "feeling-anxious", "dont-know-what-to-do",
      "help-me-please", "victim-of-fraud"]),
    ("comfort_seeking",
     ["will-be-okay", "what-do-i-do-now", "am-i-safe", "recover-money-back",
      "how-long-recover"]),
    ("rbi_specific",
     ["rbi-guideline", "reserve-bank-guideline", "central-bank-regulation",
      "rbi-transaction-limit", "what-rbi-says"]),
    ("fraud_types",
     ["types-of-fraud", "common-fraud", "fraud-pattern", "how-fraud-work",
      "latest-fraud-trend"]),
    ("security_measures",
     ["security-measure", "how-secure-payment", "protect-upi-account",
      "safety-guideline", "best-practice"]),
    ("emergency_help",
     ["emergency-contact", "fraud-report", "help-number", "complaint-process",
      "cyber-crime-helpline"]),
    ("compliance",
     ["compliance-requirement", "legal-framework", "payment-law",
      "regulation-act", "kyc-requirement"]) ]

/-- The `important_keywords` list of `classify_query` (lines 224-232). -/
def important_keywords : List String :=
  ["rbi", "guideline", "regulation", "fraud", "security", "upi",
   "payment", "scam", "emergency", "help", "report", "compliance",
   "law", "act", "transaction", "limit", "kyc", "protection",
   "hi", "hello", "hey", "greetings", "how", "are", "you",
   "scared", "afraid", "worried", "nervous", "panicking", "stressed",
   "lost", "stolen", "money", "hacked", "compromised", "victim",
   "comfort", "support", "okay", "safe", "secure", "recover"]

/-- The result dict of `classify_query`. -/
structure QueryClassification where
  primary_category : String
  confidence : ℚ
  matched_patterns : List String
  keywords : List String
deriving Repr, DecidableEq

/-- One pattern test of the `classify_query` pattern loop (lines
211-219): a `re.search` hit (decided by `oracle pat query_lower`) records
the pattern and sets confidence 0.8, taking the category on strict
improvement only. -/
def patStep (oracle : String → String → Bool) (ql : String) (cat : String)
    (st : ℚ × String × List String) (pat : String) : ℚ × String × List String :=
  if oracle pat ql then
    let conf : ℚ := 8/10
    if conf > st.1 then (conf, cat, st.2.2 ++ [pat])
    else (st.1, st.2.1, st.2.2 ++ [pat])
  else st

/-- The pattern loop of `classify_query` over the whole table. -/
def classifyPatternLoop (oracle : String → String → Bool) (ql : String) :
    ℚ × String × List String :=
  query_patterns.foldl (fun st cp => cp.2.foldl (patStep oracle ql cp.1) st)
    (0, "general", [])

/-- One keyword test of the `classify_query` keyword loop (lines
234-238): a contained keyword is recorded, and raises confidence to 0.6
only when it is still exactly 0. -/
def kwStep (ql : String) (st : List String × ℚ) (kw : String) : List String × ℚ :=
  if pyIn kw ql then
    (st.1 ++ [kw], if st.2 = 0 then 6/10 else st.2)
  else st

/-- The keyword loop of `classify_query`. -/
def classifyKeywordLoop (ql : String) (conf0 : ℚ) : List String × ℚ :=
  important_keywords.foldl (kwStep ql) ([], conf0)

/-- `classify_query` (lines 196-242), with `re.search` hits decided by the
`oracle` parameter. -/
def classify_query (oracle : String → String → Bool) (query : String) :
    QueryClassification :=
  let ql := pyLower query
  let pat := classifyPatternLoop oracle ql
  let kw := classifyKeywordLoop ql pat.1
  ⟨pat.2.1, kw.2, pat.2.2, kw.1⟩

/-! ## `personality_engine.py`

The engine rewrites response texts with `re.sub` on patterns of the form
`\b<literal>\b` with `re.IGNORECASE`, and with plain `str.replace`.  Both
are embedded as left-to-right, non-overlapping scans, exactly as the
Python functions behave.  Every `\b<literal>\b` pattern used by the
source begins and ends with a word character, so the two `\b` anchors
amount to: the previous character (tracked by a flag) is not a word
character, and the character following the match, if any, is not a word
character. -/

/-- Word-character status of the last character of a replacement, used as
the boundary flag after splicing it in (`true` for the empty replacement,
which no caller uses). -/
def endFlag (rep : List Char) : Bool :=
  match rep.getLast? with
  | some c => isWordChar c
  | none => true

/-- Case-insensitive match of a pattern at the head of the text. -/
def matchCI : List Char → List Char → Bool
  | [], _ => true
  | _ :: _, [] => false
  | a :: as, b :: bs => ciEq a b && matchCI as bs

/-- The trailing `\b` of a `\b<literal>\b` pattern whose literal ends in a
word character: the character right after the match is absent or not a
word character. -/
def wbAfter : List Char → List Char → Bool
  | [], [] => true
  | [], c :: _ => !isWordChar c
  | _ :: _, [] => true
  | _ :: ps, _ :: ts => wbAfter ps ts

/-- Whether `\b<pat>\b` (ignore-case) matches at the head of the text,
`flag` recording whether the preceding character is a word character. -/
def headTest (p : List Char) (flag : Bool) (t : List Char) : Bool :=
  !flag && matchCI p t && wbAfter p t

/-- `re.sub(r'\b<pat>\b', rep, text, flags=re.IGNORECASE)` for a literal
`pat` starting and ending in word characters: left-to-right
non-overlapping replacement. -/
def subWB (p rep : List Char) (flag : Bool) : List Char → List Char
  | [] => []
  | c :: cs =>
    if headTest p flag (c :: cs) then
      rep ++ subWB p rep (endFlag rep) (cs.drop (p.length - 1))
    else
      c :: subWB p rep (isWordChar c) cs
termination_by t => t.length
decreasing_by
· simp only [List.length_drop, List.length_cons]; omega
· simp only [List.length_cons]; omega

/-- String-level wrapper for `subWB`, starting at a word boundary. -/
def subWBStr (pat rep : String) (t : String) : String :=
  ⟨subWB pat.data rep.data false t.data⟩

/-- Python `str.replace(sub, rep)` (all occurrences, left to right,
non-overlapping); the empty-needle case, unused by the source, is the
identity. -/
def replaceAll (sub rep : List Char) : List Char → List Char
  | [] => []
  | c :: cs =>
    if sub.isEmpty then c :: cs
    else if startsList sub (c :: cs) then
      rep ++ replaceAll sub rep (cs.drop (sub.length - 1))
    else
      c :: replaceAll sub rep cs
termination_by t => t.length
decreasing_by
· simp only [List.length_drop, List.length_cons]; omega
· simp only [List.length_cons]; omega

/-- String-level wrapper for `replaceAll`. -/
def replaceAllStr (sub rep : String) (t : String) : String :=
  ⟨replaceAll sub.data rep.data t.data⟩

/-- Python `str.count(sub)` (non-overlapping). -/
def countSub (sub : List Char) : List Char → Nat
  | [] => 0
  | c :: cs =>
    if sub.isEmpty then 0
    else if startsList sub (c :: cs) then
      1 + countSub sub (cs.drop (sub.length - 1))
    else
      countSub sub cs
termination_by t => t.length
decreasing_by
· simp only [List.length_drop, List.length_cons]; omega
· simp only [List.length_cons]; omega

/-- Python `text.split('\n')` (keeps empty lines). -/
def splitNl : List Char → List (List Char)
  | [] => [[]]
  | c :: cs =>
    let r := splitNl cs
    if c == '\n' then [] :: r else (c :: r.headD []) :: r.tail

/-- Association-list lookup with default, modelling `dict.get(k, d)`. -/
def lookupA {α : Type} (l : List (String × α)) (k : String) (d : α) : α :=
  match l.find? (fun p => p.1 == k) with
  | some p => p.2
  | none => d

/-- Embedded `PersonalityProfile` dataclass. -/
structure PersonalityProfile where
  name : String
  core_traits : List (String × ℚ)
  communication_style : String
  empathy_level : ℚ
  humor_usage : ℚ
  formality_level : ℚ
  supportiveness : ℚ
  optimism : ℚ
  detail_orientation : ℚ
deriving Repr, DecidableEq

/-- The three built-in profiles (`_initialize_personalities`). -/
def personality_profiles : List (String × PersonalityProfile) :=
  [ ("compassionate_guardian",
     ⟨"Compassionate Guardian",
      [("empathy", 95/100), ("patience", 90/100), ("warmth", 90/100),
       ("reliability", 95/100), ("wisdom", 85/100)],
      "nurturing", 95/100, 30/100, 40/100, 95/100, 80/100, 85/100⟩),
    ("knowledgeable_mentor",
     ⟨"Knowledgeable Mentor",
      [("intelligence", 95/100), ("wisdom", 90/100), ("patience", 85/100),
       ("thoroughness", 90/100), ("guidance", 95/100)],
      "educational", 80/100, 20/100, 60/100, 85/100, 75/100, 95/100⟩),
    ("friendly_companion",
     ⟨"Friendly Companion",
      [("friendliness", 95/100), ("approachability", 90/100), ("humor", 80/100),
       ("relatability", 95/100), ("enthusiasm", 85/100)],
      "casual", 85/100, 70/100, 20/100, 80/100, 90/100, 70/100⟩) ]

/-- The `casual_replacements` table of `_make_more_casual` (patterns are
`\b...\b`, ignore-case; the first entry maps `You` to itself). -/
def casual_replacements : List (String × String) :=
  [("You", "You"), ("I am", "I\x27m"), ("do not", "don\x27t"),
   ("cannot", "can\x27t"), ("will not", "won\x27t"),
   ("should not", "shouldn\x27t"), ("would not", "wouldn\x27t"),
   ("it is", "it\x27s"), ("that is", "that\x27s")]

/-- One `re.sub(r'\b..\b', .., flags=re.IGNORECASE)` pass of the
formality adjusters. -/
def subStepStr (r : String) (p : String × String) : String :=
  subWBStr p.1 p.2 r

/-- `_make_more_casual` (lines 352-369). -/
def make_more_casual (t : String) : String :=
  casual_replacements.foldl subStepStr t

/-- The `formal_replacements` table of `_make_more_formal` (patterns are
`\b...\b`, ignore-case). -/
def formal_replacements : List (String × String) :=
  [("don\x27t", "do not"), ("can\x27t", "cannot"), ("won\x27t", "will not"),
   ("shouldn\x27t", "should not"), ("wouldn\x27t", "would not"),
   ("it\x27s", "it is"), ("that\x27s", "that is")]

/-- `_make_more_formal` (lines 371-387). -/
def make_more_formal (t : String) : String :=
  formal_replacements.foldl subStepStr t

/-- The `warmth_markers` pairs of `_add_warmth_markers` (plain
`str.replace`). -/
def warmth_markers : List (String × String) :=
  [("I understand", "I truly understand"),
   ("This is difficult", "This must be so difficult for you"),
   ("You should", "You might consider"),
   ("Here\x27s what to do", "Here\x27s what I\x27d gently suggest"),
   ("The process", "This process")]

/-- `_add_warmth_markers` (lines 389-403). -/
def add_warmth_markers (t : String) : String :=
  warmth_markers.foldl (fun r p => replaceAllStr p.1 p.2 r) t

/-- `_enhance_detail_structure` (lines 405-418): if the text mentions a
colon and is not already heavily formatted, wrap every colon-carrying line
not starting (after strip) with a bullet in `**`. -/
def enhance_detail_structure (t : String) : String :=
  if hasSub [':'] t.data && !(countSub ['*', '*'] t.data > 4) then
    let lines := splitNl t.data
    ⟨List.intercalate ['\n'] (lines.map (fun l =>
        if hasSub [':'] l && !(startsList ['•'] (stripList l)) then
          ['*', '*'] ++ l ++ ['*', '*']
        else l))⟩
  else t

/-- `_apply_personality_style` (lines 274-296): formality adjustment, then
warmth markers for empathetic profiles on fearful/sad/anxious readings,
then detail structuring. -/
def apply_personality_style (response : String) (p : PersonalityProfile)
    (ea : EmotionAnalysis) : String :=
  let r1 :=
    if p.formality_level < 3/10 then make_more_casual response
    else if p.formality_level > 7/10 then make_more_formal response
    else response
  let r2 :=
    if p.empathy_level > 8/10 &&
        (["fear", "sadness", "anxiety"] : List String).contains ea.primary_emotion then
      add_warmth_markers r1
    else r1
  if p.detail_orientation > 8/10 then enhance_detail_structure r2 else r2

/-- The `response_templates` table (`_initialize_response_templates`),
keyed by personality name, then by situation. -/
def response_templates : List (String × List (String × List String)) :=
  [ ("compassionate_guardian",
     [ ("greeting",
        ["Hello there, dear! 🤗 I\x27m so glad you\x27ve reached out to me today.",
         "Hi sweetheart! 💙 I\x27m here to support you through whatever you\x27re facing.",
         "Welcome, my friend! 🌟 You\x27re in a safe space with me now."]),
       ("empathy_high",
        ["Oh honey, I can truly feel how difficult this is for you right now. 💙",
         "My heart goes out to you - what you\x27re experiencing is so understandably overwhelming.",
         "Dear one, please know that your feelings are completely valid and I\x27m here to help you through this."]),
       ("encouragement",
        ["You\x27re being so incredibly brave by reaching out for help - that takes real strength. 💪",
         "I want you to know that you\x27re not walking through this alone - I\x27m right here with you.",
         "You have more resilience within you than you realize, and together we\x27ll get through this."]),
       ("reassurance",
        ["Let me assure you - you\x27re safe now, and we\x27re going to take this one step at a time.",
         "Take a deep breath with me. You\x27re protected, and I\x27m here to guide you forward.",
         "Everything is going to work out, dear. I\x27ve seen so many people overcome similar challenges."]) ]),
    ("knowledgeable_mentor",
     [ ("greeting",
        ["Good day! I\x27m pleased to assist you with your inquiry today.",
         "Hello! I\x27m here to provide you with comprehensive guidance and information.",
         "Welcome! Let\x27s work together to address your concerns with thorough, reliable information."]),
       ("information_delivery",
        ["Based on comprehensive analysis and current regulations, here\x27s what you need to know:",
         "Let me provide you with detailed, accurate information that will help you understand the situation:",
         "Drawing from extensive knowledge of payment security protocols, I can guide you through this:"]),
       ("instruction_giving",
        ["I recommend following this systematic approach to resolve your situation:",
         "Here\x27s a structured plan that will effectively address your concerns:",
         "The most effective course of action involves these carefully ordered steps:"]),
       ("expertise_sharing",
        ["From my extensive knowledge of financial security protocols:",
         "Based on current RBI guidelines and best practices:",
         "According to established cybersecurity principles:"]) ]),
    ("friendly_companion",
     [ ("greeting",
        ["Hey there! 😊 So good to see you! What\x27s happening in your world today?",
         "Hi friend! 🌟 I\x27m excited to chat with you and help however I can!",
         "Hello! 👋 Ready to tackle whatever\x27s on your mind together?"]),
       ("casual_support",
        ["Oof, that sounds really tough! But hey, we\x27ve totally got this together! 💪",
         "Yikes! That\x27s definitely stressful, but don\x27t worry - I\x27m here and we\x27ll figure it out!",
         "Oh wow, what a situation! But honestly, you came to the right place for help. 😊"]),
       ("encouragement",
        ["You\x27re doing amazing by taking action - seriously, good for you! 🌟",
         "I\x27m honestly impressed by how you\x27re handling this - you\x27ve got great instincts!",
         "You know what? I have a really good feeling about how this is going to work out! ✨"]),
       ("problem_solving",
        ["Okay, let\x27s put our heads together and solve this thing! 🧠",
         "Alright, challenge accepted! Let\x27s break this down and make it manageable.",
         "Time to get strategic! I\x27ve got some great ideas for how we can handle this."]) ]) ]

/-- One entry of `personality_modifiers`: tone adjustments per personality
and language-pattern coefficients. -/
structure ModifierEntry where
  tone_adjustments : List (String × List String)
  language_patterns : List (String × ℚ)

/-- The `personality_modifiers` table (`_initialize_personality_modifiers`). -/
def personality_modifiers : List (String × ModifierEntry) :=
  [ ("fear",
     ⟨[("compassionate_guardian", ["extra_gentle", "very_reassuring", "protective"]),
       ("knowledgeable_mentor", ["authoritative_calming", "step_by_step", "confidence_building"]),
       ("friendly_companion", ["supportive_buddy", "optimistic", "problem_solving"])],
      [("reassurance_frequency", 15/10), ("complexity_reduction", 8/10),
       ("emotional_validation", 13/10)]⟩),
    ("anger",
     ⟨[("compassionate_guardian", ["validating", "calming", "understanding"]),
       ("knowledgeable_mentor", ["solution_focused", "systematic", "empowering"]),
       ("friendly_companion", ["acknowledging", "action_oriented", "channeling_energy"])],
      [("validation_frequency", 14/10), ("solution_focus", 13/10),
       ("calming_language", 12/10)]⟩),
    ("sadness",
     ⟨[("compassionate_guardian", ["deeply_empathetic", "hopeful", "nurturing"]),
       ("knowledgeable_mentor", ["hope_focused", "recovery_oriented", "factual_optimism"]),
       ("friendly_companion", ["companionate", "uplifting", "future_focused"])],
      [("hope_injection", 14/10), ("companionship_emphasis", 13/10),
       ("recovery_focus", 12/10)]⟩),
    ("anxiety",
     ⟨[("compassionate_guardian", ["grounding", "step_by_step", "presence"]),
       ("knowledgeable_mentor", ["clear_structure", "logical_progression", "certainty"]),
       ("friendly_companion", ["normalizing", "confidence_building", "collaborative"])],
      [("structure_emphasis", 13/10), ("certainty_language", 14/10),
       ("grounding_techniques", 12/10)]⟩) ]

/-- The outcomes of the engine's `random` calls, passed in explicitly:
indices for each `random.choice` site and the boolean outcome of
`random.random() < 0.3`. -/
structure RandomChoices where
  greeting_idx : Nat
  encouragement_idx : Nat
  humor_fires : Bool
  humor_idx : Nat
  reassure_idx : Nat

/-- `random.choice` with the drawn index supplied (callers guard against
empty lists). -/
def pyChoice (idx : Nat) (l : List String) : String := l.getD (idx % l.length) ""

/-- The `humor_additions` of `_add_appropriate_humor`. -/
def humor_additions : List String :=
  ["\n\n(And remember, even the best security experts sometimes forget their own passwords! 😅)",
   "\n\nPS: You\x27re definitely not alone in dealing with these tech challenges - I see questions like this all the time!",
   "\n\n💡 Pro tip: Consider yourself now part of the \x27I\x27ve-learned-about-payment-security-the-hard-way\x27 club! 😊"]

/-- `_add_appropriate_humor` (lines 420-433). -/
def add_appropriate_humor (rnd : RandomChoices) (t : String)
    (ea : EmotionAnalysis) : String :=
  if (["neutral", "hope", "gratitude"] : List String).contains ea.primary_emotion then
    if rnd.humor_fires then t ++ pyChoice rnd.humor_idx humor_additions else t
  else t

/-- The `reassuring_additions` of the `very_reassuring` adjustment. -/
def reassuring_additions : List String :=
  ["You\x27re absolutely safe now.", "This is completely manageable.",
   "You\x27re taking exactly the right steps."]

/-- `_apply_tone_adjustment` (lines 435-455); adjustments outside the
three handled names leave the text unchanged. -/
def apply_tone_adjustment (rnd : RandomChoices) (t : String)
    (adjustment : String) : String :=
  if adjustment == "extra_gentle" then
    replaceAllStr "immediately" "when you feel comfortable doing so"
      (replaceAllStr "You must" "I\x27d gently recommend that you"
        (replaceAllStr "You need to" "When you\x27re ready, you might" t))
  else if adjustment == "very_reassuring" then
    (pyChoice rnd.reassure_idx reassuring_additions) ++ " " ++ t
  else if adjustment == "step_by_step" then
    if hasSub "1.".data t.data || hasSub "•".data t.data then
      "Let me break this down into clear, manageable steps:\n\n" ++ t
    else t
  else t

/-- `_apply_language_patterns` (lines 457-471): only the
complexity-reduction branch changes the text, replacing the connectives
`however|nevertheless|furthermore|consequently` (`\b`-anchored,
ignore-case) by `but`.  The single-pass alternation of the source is
embedded as four sequential passes: the four words cannot overlap as
`\b`-delimited matches and `but` completes no occurrence of any of them,
so the passes commute with the one-pass substitution. -/
def apply_language_patterns (t : String) (patterns : List (String × ℚ)) : String :=
  if lookupA patterns "complexity_reduction" 1 < 9/10 then
    subWBStr "consequently" "but"
      (subWBStr "furthermore" "but"
        (subWBStr "nevertheless" "but"
          (subWBStr "however" "but" t)))
  else t

/-- `_apply_emotional_modifiers` (lines 326-350). -/
def apply_emotional_modifiers (rnd : RandomChoices) (current_personality : String)
    (t : String) (ea : EmotionAnalysis) : String :=
  match personality_modifiers.find? (fun m => m.1 == ea.primary_emotion) with
  | none => t
  | some m =>
    let adjusts := lookupA m.2.tone_adjustments current_personality []
    let t1 := adjusts.foldl (fun r a => apply_tone_adjustment rnd r a) t
    apply_language_patterns t1 m.2.language_patterns

/-- `_add_personality_elements` (lines 298-325): greeting opener, then
encouragement for distressed readings under supportive profiles, then
optional humor. -/
def add_personality_elements (rnd : RandomChoices) (current_personality : String)
    (response : String) (p : PersonalityProfile) (ea : EmotionAnalysis)
    (conversation_stage : String) : String :=
  let templates := lookupA response_templates current_personality []
  let r1 :=
    if conversation_stage == "greeting" then
      let gs := lookupA templates "greeting" []
      if gs ≠ [] then (pyChoice rnd.greeting_idx gs) ++ "\n\n" ++ response
      else response
    else response
  let r2 :=
    if (["fear", "anxiety", "sadness"] : List String).contains ea.primary_emotion &&
        p.supportiveness > 8/10 then
      let es := lookupA templates "encouragement" []
      if es ≠ [] then r1 ++ "\n\n" ++ (pyChoice rnd.encouragement_idx es)
      else r1
    else r1
  if p.humor_usage > 5/10 && ea.sentiment_score > -(2/10) &&
      ea.urgency_level != "high" then
    add_appropriate_humor rnd r2 ea
  else r2

/-- The successful body of `generate_personality_enhanced_response`
(lines 252-266): style pass, personality elements, emotional modifiers. -/
def personalityPipeline (rnd : RandomChoices) (current_personality : String)
    (p : PersonalityProfile) (ea : EmotionAnalysis) (conversation_stage : String)
    (base_response : String) : String :=
  apply_emotional_modifiers rnd current_personality
    (add_personality_elements rnd current_personality
      (apply_personality_style base_response p ea) p ea conversation_stage)
    ea

/-- `generate_personality_enhanced_response` (lines 240-272): the whole
body runs under `try`, and any raised exception is caught and answered
with the unchanged `base_response`.  The body is abstracted as a fallible
`pipeline` so that the theorem quantifies over every possible internal
failure; `personalityPipeline` composed with `Except.ok` is the
non-failing instance. -/
def generate_personality_enhanced_response
    (pipeline : String → Except String String) (base_response : String) : String :=
  match pipeline base_response with
  | Except.ok r => r
  | Except.error _ => base_response

/-! ## Specification-side definitions

These definitions follow the wording of the specification (not the code)
and exist only to be compared against the embedded code. -/

/-- Scan for a `\b<pat>\b` (ignore-case) occurrence anywhere in the text,
`flag` recording whether the character before the current position is a
word character.  Used to state that a substitution left no occurrence. -/
def hasWBOcc (p : List Char) (flag : Bool) : List Char → Bool
  | [] => false
  | c :: cs => headTest p flag (c :: cs) || hasWBOcc p (isWordChar c) cs

/-- Spec-modelled for C4: the per-emotion scores capped at 1, as the spec
describes them. -/
def specCappedScores (text : String) : List (String × ℚ) :=
  emotion_patterns.map
    (fun ep => (ep.1, min (emotionConfidence ep.2 (pyLower text).data) 1))

/-- Spec-modelled for C4: `primary emotion = arg-max of the capped
per-emotion scores, ties broken in favour of the first-registered
emotion`. -/
def specPrimaryCapped (text : String) : String :=
  pyMaxKey (specCappedScores text) "neutral"

/-- Count stored for a key in an association-list dict (0 when absent). -/
def countOf (counts : List (String × Nat)) (k : String) : Nat := lookupA counts k 0

/-- Maximal count appearing in an emotion-count dict. -/
def maxCount (counts : List (String × Nat)) : Nat :=
  counts.foldl (fun a p => max a p.2) 0

/-- Spec-modelled for C3: `dominant emotion = mode of the primary
emotions, and when several emotions tie for the highest count, the most
recent of the tied emotions is chosen`. -/
def specDominantMostRecent (recent : List EmotionAnalysis) : String :=
  let counts := emotionCounts recent
  match recent.reverse.find?
      (fun ea => countOf counts ea.primary_emotion == maxCount counts) with
  | some ea => ea.primary_emotion
  | none => "neutral"

/-- Amended-claim side for C3: the first key of the count dict (keys in
first-encounter order) that attains the maximal count. -/
def firstKeyWithMax (counts : List (String × Nat)) : String :=
  match counts.find? (fun p => p.2 == maxCount counts) with
  | some p => p.1
  | none => "neutral"

/-- The casual contractions of the engine's own vocabulary: the
replacement texts `_make_more_casual` introduces (the identity entry
`You` aside). -/
def casualContractions : List String :=
  ["I\x27m", "don\x27t", "can\x27t", "won\x27t", "shouldn\x27t", "wouldn\x27t",
   "it\x27s", "that\x27s"]

/-- A text contains a casual contraction (as a substring). -/
def containsCasualContraction (s : String) : Bool :=
  casualContractions.any (fun c => hasSub c.data s.data)

/-- The fixed tone vocabulary of `_determine_response_tone`. -/
def toneSet : List String :=
  ["emergency_supportive", "empathetic", "calming", "encouraging",
   "positive", "supportive", "neutral"]

/-! ### Infrastructure for reasoning about `subWB`

`agreeCI` compares two texts case-insensitively up to the length of the
shorter one; a `false` result pinpoints a disagreement that survives any
extension of the right-hand text.  The `chainOK` side conditions, checked
by computation on the concrete replacement tables, are exactly what makes
a substitution unable to manufacture a new `\b`-occurrence of a
pattern. -/

/-- Case-insensitive agreement of two texts on their common prefix
length. -/
def agreeCI : List Char → List Char → Bool
  | [], _ => true
  | _, [] => true
  | a :: as, b :: bs => ciEq a b && agreeCI as bs

/-- All suffixes of a list (the list itself first, ending with `[]`). -/
def tailsL : List Char → List (List Char)
  | [] => [[]]
  | c :: cs => (c :: cs) :: tailsL cs

/-- A pattern suffix `q` cannot continue into a spliced-in `rep`: either
`q` disagrees with `rep` within their common prefix, or `q` is consumed
strictly inside `rep` and the next `rep` character is a word character,
so the trailing `\b` fails. -/
def blockJunction (q rep : List Char) : Bool :=
  !(agreeCI q rep) ||
  (decide (q.length < rep.length) && isWordChar (rep.getD q.length ' '))

/-- Every nonempty suffix of `patA` is blocked by `rep`: splicing `rep`
in can never complete a `\b`-occurrence of `patA` begun in earlier
text. -/
def allSuffixSafe (patA rep : List Char) : Bool :=
  (tailsL patA).all (fun q => q.isEmpty || blockJunction q rep)

/-- Walking `rep` from a non-word left context: at every position whose
preceding character is not a word character, `patA` disagrees with the
remaining suffix, and the final character of `rep` is a word character
(the flag is `true` when the walk ends).  No `\b`-occurrence of `patA`
can start inside a spliced-in `rep`. -/
def wbOKfrom (patA : List Char) (f : Bool) : List Char → Bool
  | [] => f
  | c :: cs => (f || !(agreeCI patA (c :: cs))) && wbOKfrom patA (isWordChar c) cs

/-- Word-character flag after scanning a list (default for the empty
list). -/
def flagAfter (xs : List Char) (f : Bool) : Bool :=
  match xs.getLast? with
  | some c => isWordChar c
  | none => f

/-- Side conditions under which `subWB patS repS` can neither keep nor
create a `\b`-occurrence of `patA` (checked by computation for the
concrete tables). -/
def chainOK (patA patS repS : List Char) : Bool :=
  !patA.isEmpty && !patS.isEmpty && !repS.isEmpty &&
  (match repS.head? with | some c => isWordChar c | none => false) &&
  endFlag repS && endFlag patS &&
  allSuffixSafe patA repS && wbOKfrom patA false repS

/-! ### Concrete test fixtures used by witnesses and counterexamples -/

/-- Folding a list of exchanges through `update_conversation_context`,
starting from the context a fresh user gets. -/
def foldUpdates (xs : List (String × String × EmotionAnalysis)) :
    ConversationContextS :=
  xs.foldl (fun c x => update_conversation_context c x.1 x.2.1 x.2.2) freshContext

/-- An emotion reading with the given primary emotion and neutral
remaining fields. -/
def testEA (e : String) : EmotionAnalysis :=
  ⟨e, 0, [], 0, 0, "low", "informational", "neutral"⟩

/-- A context whose last five readings tie `sadness` (older) against
`hope` (newer), one occurrence each. -/
def ctxTie : ConversationContextS :=
  ⟨[], [testEA "sadness", testEA "hope"], 2⟩

/-- A profile with formality 0.9 and all other levels at or below their
branch thresholds. -/
def profFormal : PersonalityProfile :=
  ⟨"Formal Test", [], "formal", 5/10, 3/10, 9/10, 5/10, 5/10, 5/10⟩

/-- Deterministic outcomes for the engine's random draws. -/
def rndZero : RandomChoices := ⟨0, 0, false, 0, 0⟩

/-- Text whose fear score alone exceeds the cap: four fear keywords. -/
def fourFearText : String := "scared afraid terrified frightened"

/-- Text where both fear and anger overflow the cap, fear to 1.2 and
anger to 1.8: the capped scores tie at 1 but the raw scores do not. -/
def fearAngerText : String :=
  "scared afraid terrified frightened angry furious mad frustrated irritated annoyed"

/-- Chain safety of a whole substitution table: every pattern is safe
against its own replacement and against every later substitution of the
table.  Checked by computation on the concrete tables. -/
def tableOK : List (String × String) → Bool
  | [] => true
  | p :: rest =>
      chainOK p.1.data p.1.data p.2.data &&
      rest.all (fun q => chainOK p.1.data q.1.data q.2.data) &&
      tableOK rest

/-- A concrete Q&A batch for the ingestion witness. -/
def qaPairsW : List (String × String) := [("what is upi", "a payments system")]

/-- A fresh engine state over string "embeddings" for the ingestion
witness. -/
def engineW : EngineState String := ⟨[], []⟩

/-- A concrete stored record for the resolver witness. -/
def qaRecW : QARecord := ⟨0, "what is upi", "a payments system", "general", ["upi"]⟩

/-- A one-record store for the resolver witness. -/
def dbW : List QARecord := [qaRecW]

/-! ## Theorems -/

section Theorems

/-! ### C10: emotional intensity always equals confidence -/

/-- C10: for every `EmotionAnalysis` produced by `analyze_text_emotions`
(and for the neutral reading returned on internal failure), the
`emotional_intensity` field equals the `confidence` field: both are the
maximal pattern confidence, intensity is never computed independently. -/
theorem c10_intensity_equals_confidence :
    ∀ (sent : String → ℚ) (text : String),
      (analyze_text_emotions sent text).emotional_intensity
        = (analyze_text_emotions sent text).confidence
      ∧ neutralAnalysis.emotional_intensity = neutralAnalysis.confidence :=
  fun _ _ => ⟨rfl, rfl⟩

/-! ### C9: the personality shaper swallows internal failures -/

/-- C9: whenever the internal pipeline of
`generate_personality_enhanced_response` fails, the shaper returns the
original base response unchanged; being a total function, it never
propagates an error to its caller. -/
theorem c9_failure_returns_base :
    ∀ (pipeline : String → Except String String) (base : String),
      (∃ e, pipeline base = Except.error e) →
      generate_personality_enhanced_response pipeline base = base := by
  intro pipeline base h
  obtain ⟨e, he⟩ := h
  unfold generate_personality_enhanced_response
  rw [he]

/-- Witness for C9 at a concretely failing pipeline. -/
theorem c9_failure_returns_base_witness :
    generate_personality_enhanced_response
      (fun _ => Except.error "emotion model unavailable") "Stay calm" = "Stay calm" :=
  c9_failure_returns_base _ _ ⟨"emotion model unavailable", rfl⟩

/-! ### C7: conversation histories keep the 20 most recent entries -/

theorem keepLast20_snoc {α : Type} (l : List α) (x : α) :
    keepLast20 (l.drop (l.length - 20) ++ [x])
      = (l ++ [x]).drop (l.length + 1 - 20) := by
  unfold keepLast20
  rcases le_or_lt (l.length + 1) 20 with h | h
  · have h0 : l.length - 20 = 0 := by omega
    have h1 : l.length + 1 - 20 = 0 := by omega
    rw [h0, h1, List.drop_zero, List.drop_zero, if_neg]
    simp only [List.length_append, List.length_cons, List.length_nil]
    omega
  · have h20 : 20 ≤ l.length := by omega
    have hdlen : (l.drop (l.length - 20)).length = 20 := by
      rw [List.length_drop]; omega
    have hLlen : (l.drop (l.length - 20) ++ [x]).length = 21 := by
      simp [hdlen]
    rw [if_pos (by rw [hLlen]; norm_num), hLlen]
    have h21 : (21 : ℕ) - 20 = 1 := rfl
    rw [h21, List.drop_append_of_le_length (by rw [hdlen]; norm_num),
        List.drop_drop, List.drop_append_of_le_length (by omega)]
    congr 2
    omega

theorem foldUpdates_spec (xs : List (String × String × EmotionAnalysis)) :
    foldUpdates xs =
      ⟨(xs.map (fun x => (⟨x.1, x.2.1, x.2.2⟩ : ConvEntry))).drop (xs.length - 20),
       (xs.map (fun x => x.2.2)).drop (xs.length - 20),
       xs.length⟩ := by
  induction xs using List.reverseRecOn with
  | nil => rfl
  | append_singleton xs x ih =>
    unfold foldUpdates at ih ⊢
    rw [List.foldl_append, ih]
    unfold update_conversation_context
    simp only [List.foldl_cons, List.foldl_nil]
    rw [ConversationContextS.mk.injEq]
    refine ⟨?_, ?_, ?_⟩
    · have := keepLast20_snoc
        (xs.map (fun x => (⟨x.1, x.2.1, x.2.2⟩ : ConvEntry))) (⟨x.1, x.2.1, x.2.2⟩ : ConvEntry)
      simp only [List.length_map] at this
      simp [this, List.length_append]
    · have := keepLast20_snoc (xs.map (fun x => x.2.2)) x.2.2
      simp only [List.length_map] at this
      simp [this, List.length_append]
    · simp

/-- C7: appending 25 exchanges for one user through
`update_conversation_context`, starting from a fresh context, leaves
exactly the 20 most recent exchanges in the conversation history and the
20 most recent readings in the emotional-state history; the 5 oldest
entries are evicted. -/
theorem c7_keeps_last_20 :
    ∀ (xs : List (String × String × EmotionAnalysis)), xs.length = 25 →
      (foldUpdates xs).conversation_history
          = (xs.map (fun x => (⟨x.1, x.2.1, x.2.2⟩ : ConvEntry))).drop 5
      ∧ (foldUpdates xs).emotional_state_history
          = (xs.map (fun x => x.2.2)).drop 5
      ∧ (foldUpdates xs).total_interactions = 25 := by
  intro xs h
  rw [foldUpdates_spec, h]
  exact ⟨rfl, rfl, rfl⟩

/-- Witness for C7 on a concrete run of 25 identical exchanges. -/
theorem c7_keeps_last_20_witness :
    (foldUpdates (List.replicate 25 ("hello", "hi there", neutralAnalysis))).conversation_history
        = ((List.replicate 25 ("hello", "hi there", neutralAnalysis)).map
            (fun x => (⟨x.1, x.2.1, x.2.2⟩ : ConvEntry))).drop 5
    ∧ (foldUpdates (List.replicate 25 ("hello", "hi there", neutralAnalysis))).emotional_state_history
        = ((List.replicate 25 ("hello", "hi there", neutralAnalysis)).map
            (fun x => x.2.2)).drop 5
    ∧ (foldUpdates (List.replicate 25 ("hello", "hi there", neutralAnalysis))).total_interactions = 25 :=
  c7_keeps_last_20 _ (by simp)

/-! ### C5: pattern confidence is authoritative in `classify_query` -/

theorem inner_pat_conf (oracle : String → String → Bool) (ql cat : String) :
    ∀ (pats : List String) (st : ℚ × String × List String), st.1 ≤ 8/10 →
      (pats.foldl (patStep oracle ql cat) st).1
        = if pats.any (fun p => oracle p ql) then 8/10 else st.1 := by
  intro pats
  induction pats with
  | nil => intro st _; simp
  | cons p ps ih =>
    intro st h
    simp only [List.foldl_cons, List.any_cons]
    by_cases hp : oracle p ql
    · have hstep : (patStep oracle ql cat st p).1 = 8/10 := by
        unfold patStep
        rw [if_pos hp]
        dsimp only
        by_cases h2 : (8 : ℚ)/10 > st.1
        · rw [if_pos h2]
        · rw [if_neg h2]
          exact le_antisymm h (not_lt.mp h2)
      rw [ih _ (le_of_eq hstep), hstep]
      simp [hp]
    · have hstep : patStep oracle ql cat st p = st := by
        unfold patStep; rw [if_neg (by simpa using hp)]
      rw [hstep, ih _ h]
      simp [hp]

theorem inner_pat_nohit (oracle : String → String → Bool) (ql cat : String) :
    ∀ (pats : List String) (st : ℚ × String × List String),
      pats.any (fun p => oracle p ql) = false →
      pats.foldl (patStep oracle ql cat) st = st := by
  intro pats
  induction pats with
  | nil => intro st _; rfl
  | cons p ps ih =>
    intro st h
    simp only [List.any_cons, Bool.or_eq_false_iff] at h
    have hstep : patStep oracle ql cat st p = st := by
      unfold patStep; rw [if_neg (by simp [h.1])]
    simp only [List.foldl_cons, hstep]
    exact ih _ (by simp [h.2])

theorem outer_pat_conf (oracle : String → String → Bool) (ql : String) :
    ∀ (table : List (String × List String)) (st : ℚ × String × List String),
      st.1 ≤ 8/10 →
      (table.foldl (fun st cp => cp.2.foldl (patStep oracle ql cp.1) st) st).1
        = if table.any (fun cp => cp.2.any (fun p => oracle p ql)) then 8/10 else st.1 := by
  intro table
  induction table with
  | nil => intro st _; simp
  | cons cp rest ih =>
    intro st h
    simp only [List.foldl_cons, List.any_cons]
    have hin := inner_pat_conf oracle ql cp.1 cp.2 st h
    have hle : (cp.2.foldl (patStep oracle ql cp.1) st).1 ≤ 8/10 := by
      rw [hin]; split
      · exact le_refl _
      · exact h
    rw [ih _ hle, hin]
    by_cases h1 : cp.2.any (fun p => oracle p ql) <;>
      by_cases h2 : rest.any (fun cp => cp.2.any (fun p => oracle p ql)) <;>
        simp [h1, h2]

theorem outer_pat_nohit (oracle : String → String → Bool) (ql : String) :
    ∀ (table : List (String × List String)) (st : ℚ × String × List String),
      table.any (fun cp => cp.2.any (fun p => oracle p ql)) = false →
      table.foldl (fun st cp => cp.2.foldl (patStep oracle ql cp.1) st) st = st := by
  intro table
  induction table with
  | nil => intro st _; rfl
  | cons cp rest ih =>
    intro st h
    simp only [List.any_cons, Bool.or_eq_false_iff] at h
    simp only [List.foldl_cons, inner_pat_nohit oracle ql cp.1 cp.2 st (by simp [h.1])]
    exact ih _ (by simp [h.2])

theorem kw_fold_conf (ql : String) :
    ∀ (kws : List String) (st : List String × ℚ),
      (kws.foldl (kwStep ql) st).2
        = if st.2 = 0 ∧ kws.any (fun kw => pyIn kw ql) then 6/10 else st.2 := by
  intro kws
  induction kws with
  | nil => intro st; simp
  | cons kw kws ih =>
    intro st
    simp only [List.foldl_cons, List.any_cons]
    by_cases hk : pyIn kw ql
    · have hstep : kwStep ql st kw = (st.1 ++ [kw], if st.2 = 0 then 6/10 else st.2) := by
        unfold kwStep; rw [if_pos hk]
      rw [hstep, ih]
      by_cases h0 : st.2 = 0
      · have h6 : ((6 : ℚ)/10) ≠ 0 := by norm_num
        simp [h0, hk, h6]
      · simp [h0, hk]
    · have hstep : kwStep ql st kw = st := by
        unfold kwStep; rw [if_neg (by simpa using hk)]
      rw [hstep, ih]
      simp [hk]

theorem kw_fold_nohit (ql : String) :
    ∀ (kws : List String) (st : List String × ℚ),
      kws.any (fun kw => pyIn kw ql) = false →
      kws.foldl (kwStep ql) st = st := by
  intro kws
  induction kws with
  | nil => intro st _; rfl
  | cons kw kws ih =>
    intro st h
    simp only [List.any_cons, Bool.or_eq_false_iff] at h
    have hstep : kwStep ql st kw = st := by
      unfold kwStep; rw [if_neg (by simp [h.1])]
    simp only [List.foldl_cons, hstep]
    exact ih _ (by simp [h.2])

/-- C5: in `classify_query`, a pattern match is authoritative: whenever
any pattern matches, the confidence is 0.8 and keyword hits never lower
it; a keyword hit contributes 0.6 only when no pattern matched (pattern
confidence still 0), and an input with neither pattern nor keyword hits
classifies as `general` with confidence 0. -/
theorem c5_pattern_authoritative :
    ∀ (oracle : String → String → Bool) (query : String),
      (query_patterns.any (fun cp => cp.2.any (fun p => oracle p (pyLower query))) = true →
        (classify_query oracle query).confidence = 8/10)
      ∧ (query_patterns.any (fun cp => cp.2.any (fun p => oracle p (pyLower query))) = false →
          (classify_query oracle query).primary_category = "general"
          ∧ (important_keywords.any (fun kw => pyIn kw (pyLower query)) = true →
              (classify_query oracle query).confidence = 6/10)
          ∧ (important_keywords.any (fun kw => pyIn kw (pyLower query)) = false →
              classify_query oracle query = ⟨"general", 0, [], []⟩)) := by
  intro oracle query
  constructor
  · intro hpat
    show (classifyKeywordLoop (pyLower query) (classifyPatternLoop oracle (pyLower query)).1).2 = 8/10
    unfold classifyKeywordLoop
    rw [kw_fold_conf]
    have hc : (classifyPatternLoop oracle (pyLower query)).1 = 8/10 := by
      unfold classifyPatternLoop
      rw [outer_pat_conf oracle (pyLower query) query_patterns _ (by norm_num), hpat]
      rfl
    rw [hc]
    have h8 : ((8 : ℚ)/10) ≠ 0 := by norm_num
    simp [h8]
  · intro hpat
    have hzero : classifyPatternLoop oracle (pyLower query) = (0, "general", []) := by
      unfold classifyPatternLoop
      exact outer_pat_nohit oracle (pyLower query) query_patterns _ hpat
    refine ⟨?_, ?_, ?_⟩
    · show (classifyPatternLoop oracle (pyLower query)).2.1 = "general"
      rw [hzero]
    · intro hkw
      show (classifyKeywordLoop (pyLower query) (classifyPatternLoop oracle (pyLower query)).1).2 = 6/10
      unfold classifyKeywordLoop
      rw [kw_fold_conf, hzero]
      simp [hkw]
    · intro hkw
      simp only [classify_query, classifyKeywordLoop]
      rw [kw_fold_nohit (pyLower query) important_keywords _ hkw, hzero]

/-- Witness for C5: an input with no pattern hit and no keyword hit
yields `general` with confidence 0. -/
theorem c5_pattern_authoritative_witness :
    classify_query (fun _ _ => false) "zzz" = ⟨"general", 0, [], []⟩ :=
  (c5_pattern_authoritative (fun _ _ => false) "zzz").2 (by decide) |>.2.2 (by decide)

/-! ### C1: confidence bounds and the tone vocabulary -/

theorem tone_mem_toneSet :
    ∀ (e : String) (s : ℚ) (u : String), determineResponseTone e s u ∈ toneSet := by
  intro e s u
  unfold determineResponseTone
  split_ifs <;> simp [toneSet]

theorem loop_conf_nonneg (tl : List Char) :
    ∀ (table : List (String × EmotionPatternEntry))
      (st : List (String × ℚ) × String × ℚ),
      0 ≤ st.2.2 → 0 ≤ (table.foldl (emotionLoopStep tl) st).2.2 := by
  intro table
  induction table with
  | nil => intro st h; exact h
  | cons e rest ih =>
    intro st h
    simp only [List.foldl_cons]
    apply ih
    simp only [emotionLoopStep]
    split_ifs with h1 h2
    · exact le_of_lt (lt_of_le_of_lt h h2)
    · exact h
    · exact h

/-- C1 (amended): for every input text, the analyzer's confidence is
nonnegative but NOT capped at 1 (only the stored secondary-emotion scores
are capped; the confidence is the uncapped maximal raw score, see the
counterexample), and the recommended response tone always belongs to the
fixed seven-tone vocabulary. -/
theorem c1_confidence_nonneg_tone_enumerated :
    ∀ (sent : String → ℚ) (text : String),
      0 ≤ (analyze_text_emotions sent text).confidence
      ∧ (analyze_text_emotions sent text).recommended_response_tone ∈ toneSet := by
  intro sent text
  constructor
  · show 0 ≤ (emotionLoop (pyLower text).data).2.2
    exact loop_conf_nonneg _ emotion_patterns _ (le_refl 0)
  · exact tone_mem_toneSet _ _ _

set_option maxRecDepth 100000 in
/-- C1 counterexample: on a text carrying four fear keywords the
confidence is 1.2, outside the claimed interval `[0, 1]`. -/
theorem c1_confidence_above_one :
    (analyze_text_emotions (fun _ => 0) fourFearText).confidence = 6/5
    ∧ ¬ ((analyze_text_emotions (fun _ => 0) fourFearText).confidence ≤ 1) := by
  have h : (analyze_text_emotions (fun _ => 0) fourFearText).confidence = 6/5 := by
    simp +decide [analyze_text_emotions, emotionLoop, emotionLoopStep, emotionConfidence,
      emotion_patterns, pyLower, fourFearText]
    norm_num
  refine ⟨h, ?_⟩
  rw [h]
  norm_num

/-! ### C4: scoring arithmetic and the primary-emotion arg-max -/

theorem emotion_fold_spec (tl : List Char) :
    ∀ (table : List (String × EmotionPatternEntry))
      (st : List (String × ℚ) × String × ℚ),
      0 ≤ st.2.2 →
      table.foldl (emotionLoopStep tl) st =
        (st.1 ++ table.filterMap (fun ep =>
            if emotionConfidence ep.2 tl > 0 then
              some (ep.1, min (emotionConfidence ep.2 tl) 1)
            else none),
         (table.map (fun ep => (ep.1, emotionConfidence ep.2 tl))).foldl maxStep st.2) := by
  intro table
  induction table with
  | nil => intro st _; simp
  | cons ep rest ih =>
    intro st h
    simp only [List.foldl_cons, List.map_cons]
    by_cases h1 : emotionConfidence ep.2 tl > 0
    · have hfm : List.filterMap (fun ep =>
          if emotionConfidence ep.2 tl > 0 then
            some (ep.1, min (emotionConfidence ep.2 tl) 1)
          else none) (ep :: rest)
          = (ep.1, min (emotionConfidence ep.2 tl) 1) ::
            List.filterMap (fun ep =>
              if emotionConfidence ep.2 tl > 0 then
                some (ep.1, min (emotionConfidence ep.2 tl) 1)
              else none) rest :=
        List.filterMap_cons_some (by rw [if_pos h1])
      rw [hfm]
      by_cases h2 : emotionConfidence ep.2 tl > st.2.2
      · have hstep : emotionLoopStep tl st ep
            = (st.1 ++ [(ep.1, min (emotionConfidence ep.2 tl) 1)],
               ep.1, emotionConfidence ep.2 tl) := by
          simp only [emotionLoopStep]
          rw [if_pos h1, if_pos h2]
        have hmax : maxStep st.2 (ep.1, emotionConfidence ep.2 tl)
            = (ep.1, emotionConfidence ep.2 tl) := by
          unfold maxStep
          rw [if_pos h2]
        rw [hstep,
          ih (st.1 ++ [(ep.1, min (emotionConfidence ep.2 tl) 1)],
              ep.1, emotionConfidence ep.2 tl)
            (le_of_lt (lt_of_le_of_lt h h2)),
          hmax]
        simp only [List.append_assoc, List.singleton_append]
      · have hstep : emotionLoopStep tl st ep
            = (st.1 ++ [(ep.1, min (emotionConfidence ep.2 tl) 1)], st.2.1, st.2.2) := by
          simp only [emotionLoopStep]
          rw [if_pos h1, if_neg h2]
        have hmax : maxStep st.2 (ep.1, emotionConfidence ep.2 tl) = st.2 := by
          unfold maxStep
          rw [if_neg h2]
        rw [hstep,
          ih (st.1 ++ [(ep.1, min (emotionConfidence ep.2 tl) 1)], st.2.1, st.2.2) h,
          hmax]
        simp only [List.append_assoc, List.singleton_append]
    · have hfm : List.filterMap (fun ep =>
          if emotionConfidence ep.2 tl > 0 then
            some (ep.1, min (emotionConfidence ep.2 tl) 1)
          else none) (ep :: rest)
          = List.filterMap (fun ep =>
              if emotionConfidence ep.2 tl > 0 then
                some (ep.1, min (emotionConfidence ep.2 tl) 1)
              else none) rest :=
        List.filterMap_cons_none (by rw [if_neg h1])
      rw [hfm]
      have hstep : emotionLoopStep tl st ep = st := by
        simp only [emotionLoopStep]
        rw [if_neg h1]
      have hmax : maxStep st.2 (ep.1, emotionConfidence ep.2 tl) = st.2 := by
        unfold maxStep
        rw [if_neg (not_lt.mpr (le_trans (not_lt.mp h1) h))]
      rw [hstep, ih st h, hmax]

/-- C4 (amended): the stored secondary-emotion scores are the keyword,
phrase and intensity sums capped at 1, but the primary emotion is the
arg-max of the UNCAPPED sums: ties among uncapped sums (and the all-zero
case, yielding `neutral`) go to the first-registered entry, while two
emotions whose capped scores tie at 1 are ranked by their uncapped sums
(see the counterexample). -/
theorem c4_primary_is_uncapped_argmax :
    ∀ (sent : String → ℚ) (text : String),
      (analyze_text_emotions sent text).secondary_emotions
        = emotion_patterns.filterMap (fun ep =>
            if emotionConfidence ep.2 (pyLower text).data > 0 then
              some (ep.1, min (emotionConfidence ep.2 (pyLower text).data) 1)
            else none)
      ∧ (analyze_text_emotions sent text).primary_emotion
        = pyMaxKey (("neutral", (0 : ℚ)) ::
            emotion_patterns.map
              (fun ep => (ep.1, emotionConfidence ep.2 (pyLower text).data)))
            "neutral" := by
  intro sent text
  have h := emotion_fold_spec (pyLower text).data emotion_patterns
    ([], "neutral", 0) (le_refl 0)
  constructor
  · show (emotionLoop (pyLower text).data).1 = _
    unfold emotionLoop
    rw [h]
    simp
  · show (emotionLoop (pyLower text).data).2.1 = _
    unfold emotionLoop
    rw [h]
    rfl

set_option maxRecDepth 100000 in
/-- C4 counterexample: on a text whose fear sum is 1.2 and anger sum is
1.8, the spec's arg-max of capped scores (tie at 1, first-registered
wins) picks `fear`, but the code picks `anger`. -/
theorem c4_capped_argmax_differs :
    specPrimaryCapped fearAngerText = "fear"
    ∧ (analyze_text_emotions (fun _ => 0) fearAngerText).primary_emotion = "anger"
    ∧ ("fear" : String) ≠ "anger" := by
  refine ⟨?_, ?_, by decide⟩
  · simp +decide [specPrimaryCapped, specCappedScores, pyMaxKey, maxStep, emotionConfidence,
      emotion_patterns, pyLower, fearAngerText]
    norm_num
  · simp +decide [analyze_text_emotions, emotionLoop, emotionLoopStep, emotionConfidence,
      emotion_patterns, pyLower, fearAngerText]
    norm_num

/-! ### C3: the dominant emotion and its tie-break -/

theorem foldl_max_init (l : List (String × ℕ)) :
    ∀ (a b : ℕ),
      l.foldl (fun acc p => max acc p.2) (max a b)
        = max a (l.foldl (fun acc p => max acc p.2) b) := by
  induction l with
  | nil => intro a b; rfl
  | cons p ps ih =>
    intro a b
    simp only [List.foldl_cons]
    rw [max_assoc, ih]

theorem maxCount_cons (p : String × ℕ) (l : List (String × ℕ)) :
    maxCount (p :: l) = max p.2 (maxCount l) := by
  unfold maxCount
  simp only [List.foldl_cons, Nat.zero_max]
  have h := foldl_max_init l p.2 0
  rw [Nat.max_zero] at h
  exact h

theorem le_maxCount :
    ∀ (l : List (String × ℕ)) (p : String × ℕ), p ∈ l → p.2 ≤ maxCount l := by
  intro l
  induction l with
  | nil => intro p hp; cases hp
  | cons q ps ih =>
    intro p hp
    rw [maxCount_cons]
    rcases List.mem_cons.mp hp with h | h
    · rw [h]; exact le_max_left _ _
    · exact le_trans (ih p h) (le_max_right _ _)

theorem maxCount_attained :
    ∀ (l : List (String × ℕ)), l ≠ [] →
      (l.find? (fun p => maxCount l ≤ p.2)).isSome := by
  intro l
  induction l with
  | nil => intro h; exact absurd rfl h
  | cons p ps ih =>
    intro _
    by_cases hp : maxCount (p :: ps) ≤ p.2
    · rw [List.find?_cons_of_pos _ (by simpa using hp)]
      rfl
    · have hps : ps ≠ [] := by
        intro hnil
        apply hp
        rw [hnil, maxCount_cons]
        simp [maxCount, Nat.max_zero]
      have hM : maxCount (p :: ps) = maxCount ps := by
        rw [maxCount_cons] at hp ⊢
        have h1 : p.2 ≤ maxCount ps := by
          by_contra hc
          push_neg at hc
          exact hp (le_of_eq (max_eq_left (le_of_lt hc)))
        exact max_eq_right h1
      rw [List.find?_cons_of_neg _ (by simpa using hp), hM]
      exact ih hps

theorem find?_congr_mem {α : Type} :
    ∀ (l : List α) (p q : α → Bool), (∀ x ∈ l, p x = q x) →
      l.find? p = l.find? q := by
  intro l
  induction l with
  | nil => intro p q _; rfl
  | cons x xs ih =>
    intro p q h
    have hx := h x (List.mem_cons_self x xs)
    by_cases hpx : p x = true
    · rw [List.find?_cons_of_pos _ hpx, List.find?_cons_of_pos _ (hx ▸ hpx)]
    · rw [List.find?_cons_of_neg _ hpx,
        List.find?_cons_of_neg _ (by rw [← hx]; exact hpx)]
      exact ih p q (fun y hy => h y (List.mem_cons_of_mem x hy))

theorem fold_first_max :
    ∀ (l : List (String × ℕ)) (kv : String × ℕ),
      l.foldl maxStep kv
        = ((kv :: l).find? (fun p => maxCount (kv :: l) ≤ p.2)).getD kv := by
  intro l
  induction l with
  | nil =>
    intro kv
    have e : List.find? (fun q => decide (maxCount [kv] ≤ q.2)) [kv] = some kv := by
      apply List.find?_cons_of_pos
      simp [maxCount_cons, maxCount, Nat.max_zero]
    simp only [List.foldl_nil]
    rw [e]
    rfl
  | cons p ps ih =>
    intro kv
    simp only [List.foldl_cons]
    rw [ih (maxStep kv p)]
    have hMM : maxCount (maxStep kv p :: ps) = maxCount (kv :: p :: ps) := by
      unfold maxStep
      by_cases hp : p.2 > kv.2
      · rw [if_pos hp, maxCount_cons, maxCount_cons, maxCount_cons]
        exact (max_eq_right (le_trans (le_of_lt hp) (le_max_left _ _))).symm
      · rw [if_neg hp, maxCount_cons, maxCount_cons, maxCount_cons, ← max_assoc,
          max_eq_left (not_lt.mp hp)]
    rw [hMM]
    by_cases hkv : maxCount (kv :: p :: ps) ≤ kv.2
    · have hple : p.2 ≤ kv.2 := le_trans (le_maxCount _ p (by simp)) hkv
      have hstep : maxStep kv p = kv := by
        unfold maxStep
        rw [if_neg (not_lt.mpr hple)]
      have e1 : List.find? (fun q => decide (maxCount (kv :: p :: ps) ≤ q.2)) (kv :: ps)
          = some kv := by
        apply List.find?_cons_of_pos
        simpa using hkv
      have e2 : List.find? (fun q => decide (maxCount (kv :: p :: ps) ≤ q.2)) (kv :: p :: ps)
          = some kv := by
        apply List.find?_cons_of_pos
        simpa using hkv
      rw [hstep, e1, e2]
    · have e2 : List.find? (fun q => decide (maxCount (kv :: p :: ps) ≤ q.2)) (kv :: p :: ps)
          = List.find? (fun q => decide (maxCount (kv :: p :: ps) ≤ q.2)) (p :: ps) := by
        apply List.find?_cons_of_neg
        simpa using hkv
      rw [e2]
      by_cases hp : p.2 > kv.2
      · have hstep : maxStep kv p = p := by
          unfold maxStep
          rw [if_pos hp]
        rw [hstep]
        have hM2 : maxCount (kv :: p :: ps) = maxCount (p :: ps) := by
          rw [maxCount_cons]
          exact max_eq_right
            (le_trans (le_of_lt hp) (le_maxCount (p :: ps) p (by simp)))
        have hsome : (List.find?
            (fun q => decide (maxCount (kv :: p :: ps) ≤ q.2)) (p :: ps)).isSome := by
          rw [hM2]
          exact maxCount_attained (p :: ps) (by simp)
        obtain ⟨v, hv⟩ := Option.isSome_iff_exists.mp hsome
        rw [hv]
        rfl
      · have hstep : maxStep kv p = kv := by
          unfold maxStep
          rw [if_neg hp]
        have e3 : List.find? (fun q => decide (maxCount (kv :: p :: ps) ≤ q.2)) (kv :: ps)
            = List.find? (fun q => decide (maxCount (kv :: p :: ps) ≤ q.2)) ps := by
          apply List.find?_cons_of_neg
          simpa using hkv
        have e4 : List.find? (fun q => decide (maxCount (kv :: p :: ps) ≤ q.2)) (p :: ps)
            = List.find? (fun q => decide (maxCount (kv :: p :: ps) ≤ q.2)) ps := by
          apply List.find?_cons_of_neg
          simp only [decide_eq_true_eq]
          intro hc
          exact hkv (le_trans hc (not_lt.mp hp))
        rw [hstep, e3, e4]

theorem pyMaxKey_eq_firstKeyWithMax :
    ∀ (l : List (String × ℕ)), l ≠ [] →
      pyMaxKey l "neutral" = firstKeyWithMax l := by
  intro l hl
  match l, hl with
  | kv :: rest, _ =>
    show (rest.foldl maxStep kv).1 = firstKeyWithMax (kv :: rest)
    have hcong : List.find? (fun q => decide (maxCount (kv :: rest) ≤ q.2)) (kv :: rest)
        = List.find? (fun q => q.2 == maxCount (kv :: rest)) (kv :: rest) := by
      apply find?_congr_mem
      intro x hx
      have hle := le_maxCount (kv :: rest) x hx
      by_cases he : x.2 = maxCount (kv :: rest)
      · simp [he]
      · have hnle : ¬ (maxCount (kv :: rest) ≤ x.2) := fun hc => he (le_antisymm hle hc)
        simp [hnle, he]
    obtain ⟨v, hv⟩ := Option.isSome_iff_exists.mp
      (maxCount_attained (kv :: rest) (by simp))
    have hv2 : List.find? (fun q => q.2 == maxCount (kv :: rest)) (kv :: rest) = some v := by
      rw [← hcong]
      exact hv
    unfold firstKeyWithMax
    rw [fold_first_max, hv, hv2]
    rfl

theorem bump_ne_nil (l : List (String × ℕ)) (k : String) : bumpCount l k ≠ [] := by
  cases l with
  | nil => simp [bumpCount]
  | cons p ps =>
    unfold bumpCount
    split_ifs <;> simp

theorem emotionCounts_ne_nil :
    ∀ (recent : List EmotionAnalysis), recent ≠ [] → emotionCounts recent ≠ [] := by
  have haux : ∀ (rs : List EmotionAnalysis) (acc : List (String × ℕ)), acc ≠ [] →
      rs.foldl (fun counts ea => bumpCount counts ea.primary_emotion) acc ≠ [] := by
    intro rs
    induction rs with
    | nil => intro acc h; exact h
    | cons r rs ih =>
      intro acc _
      simp only [List.foldl_cons]
      exact ih _ (bump_ne_nil _ _)
  intro recent h
  match recent, h with
  | r :: rs, _ =>
    unfold emotionCounts
    simp only [List.foldl_cons]
    exact haux rs _ (bump_ne_nil [] r.primary_emotion)

/-- C3 (amended): for a user with nonempty reading history, the dominant
emotion of the summary is the mode of the primary emotions over the
trailing 5 readings, but a tie between emotions with the same count is
broken in favour of the FIRST-encountered tied emotion in the trailing
window (the first key of the insertion-ordered count dict attaining the
maximal count), not the most recent one (see the counterexample). -/
theorem c3_dominant_is_first_max :
    ∀ (ctx : ConversationContextS), ctx.emotional_state_history ≠ [] →
      ∃ s, get_emotional_state_summary ctx = some s
        ∧ s.dominant_emotion
            = firstKeyWithMax (emotionCounts (lastN 5 ctx.emotional_state_history)) := by
  intro ctx h
  have hlen0 : ctx.emotional_state_history.length ≠ 0 := by
    intro h0
    exact h (List.length_eq_zero.mp h0)
  have hne : emotionCounts (lastN 5 ctx.emotional_state_history) ≠ [] := by
    apply emotionCounts_ne_nil
    intro hnil
    have hlen := congrArg List.length hnil
    simp only [lastN, List.length_drop, List.length_nil] at hlen
    omega
  rcases hh : ctx.emotional_state_history with _ | ⟨e, es⟩
  · exact absurd hh h
  · rw [hh] at hne
    simp only [get_emotional_state_summary, hh]
    refine ⟨_, rfl, ?_⟩
    show (if (emotionCounts (lastN 5 (e :: es))).isEmpty then "neutral"
          else pyMaxKey (emotionCounts (lastN 5 (e :: es))) "neutral") = _
    have hfalse : (emotionCounts (lastN 5 (e :: es))).isEmpty = false := by
      rcases hc : emotionCounts (lastN 5 (e :: es)) with _ | ⟨c, cs⟩
      · exact absurd hc hne
      · rfl
    rw [if_neg (by rw [hfalse]; exact Bool.false_ne_true)]
    exact pyMaxKey_eq_firstKeyWithMax _ hne

/-- Witness for C3's amended theorem at a concrete context. -/
theorem c3_dominant_is_first_max_witness :
    ∃ s, get_emotional_state_summary ctxTie = some s
      ∧ s.dominant_emotion
          = firstKeyWithMax (emotionCounts (lastN 5 ctxTie.emotional_state_history)) :=
  c3_dominant_is_first_max ctxTie (by simp [ctxTie])

set_option maxRecDepth 100000 in
/-- C3 counterexample: with the trailing readings `sadness` (older) and
`hope` (newer) tied at one occurrence each, the code's dominant emotion
is `sadness` — the first-encountered tied emotion — while the claimed
tie-break (most recent) would give `hope`. -/
theorem c3_tiebreak_not_most_recent :
    ((get_emotional_state_summary ctxTie).map (fun s => s.dominant_emotion)
        = some "sadness")
    ∧ specDominantMostRecent (lastN 5 ctxTie.emotional_state_history) = "hope"
    ∧ ("sadness" : String) ≠ "hope" := by
  refine ⟨?_, ?_, by decide⟩
  · simp +decide [get_emotional_state_summary, ctxTie, testEA, lastN, emotionCounts,
      bumpCount, pyMaxKey, maxStep, sliceNeg]
  · simp +decide [specDominantMostRecent, ctxTie, testEA, lastN, emotionCounts,
      bumpCount, countOf, maxCount, lookupA]

/-! ### C6: re-ingesting an identical Q&A batch is a no-op -/

theorem dup_mono (db ext : List QARecord) (q : String) :
    is_duplicate_question db q = true → is_duplicate_question (db ++ ext) q = true := by
  unfold is_duplicate_question
  intro h
  rw [List.any_append, h]
  rfl

theorem addLoop_prefix :
    ∀ (pairs : List (String × String)) (st : List QARecord × ℕ),
      ∃ ext, (pairs.foldl addQAStep st).1 = st.1 ++ ext := by
  intro pairs
  induction pairs with
  | nil => intro st; exact ⟨[], (List.append_nil _).symm⟩
  | cons pr rest ih =>
    intro st
    simp only [List.foldl_cons]
    have hstep : ∃ e1, (addQAStep st pr).1 = st.1 ++ e1 := by
      simp only [addQAStep]
      split_ifs
      · exact ⟨_, rfl⟩
      · exact ⟨[], (List.append_nil _).symm⟩
      · exact ⟨[], (List.append_nil _).symm⟩
    obtain ⟨e1, he1⟩ := hstep
    obtain ⟨ext, hext⟩ := ih (addQAStep st pr)
    exact ⟨e1 ++ ext, by rw [hext, he1, List.append_assoc]⟩

theorem addLoop_len :
    ∀ (pairs : List (String × String)) (st : List QARecord × ℕ),
      (pairs.foldl addQAStep st).1.length + st.2
        = st.1.length + (pairs.foldl addQAStep st).2 := by
  intro pairs
  induction pairs with
  | nil => intro st; simp only [List.foldl_nil]
  | cons pr rest ih =>
    intro st
    simp only [List.foldl_cons]
    have hih := ih (addQAStep st pr)
    have hcase : ((addQAStep st pr).1.length = st.1.length + 1
          ∧ (addQAStep st pr).2 = st.2 + 1)
        ∨ addQAStep st pr = st := by
      simp only [addQAStep]
      split_ifs
      · left
        constructor <;> simp
      · right; rfl
      · right; rfl
    rcases hcase with ⟨h1, h2⟩ | hs
    · rw [h1, h2] at hih
      omega
    · rw [hs] at hih ⊢
      omega

theorem addLoop_dup_after :
    ∀ (pairs : List (String × String)) (st : List QARecord × ℕ)
      (pr : String × String),
      pr ∈ pairs → pyStrip pr.1 ≠ "" → pyStrip pr.2 ≠ "" →
      is_duplicate_question (pairs.foldl addQAStep st).1 (pyStrip pr.1) = true := by
  intro pairs
  induction pairs with
  | nil => intro st pr h; cases h
  | cons q rest ih =>
    intro st pr hmem h1 h2
    simp only [List.foldl_cons]
    rcases List.mem_cons.mp hmem with he | hm
    · subst he
      have hdup : is_duplicate_question (addQAStep st pr).1 (pyStrip pr.1) = true := by
        simp only [addQAStep]
        split_ifs with hc hd
        · unfold is_duplicate_question
          rw [List.any_append]
          simp
        · simpa using hd
        · exact absurd (by simp [h1, h2]) hc
      obtain ⟨ext, hext⟩ := addLoop_prefix rest (addQAStep st pr)
      rw [hext]
      exact dup_mono _ _ _ hdup
    · exact ih (addQAStep st q) pr hm h1 h2

theorem addLoop_nochange :
    ∀ (pairs : List (String × String)) (st : List QARecord × ℕ),
      (∀ pr ∈ pairs, pyStrip pr.1 ≠ "" → pyStrip pr.2 ≠ "" →
        is_duplicate_question st.1 (pyStrip pr.1) = true) →
      pairs.foldl addQAStep st = st := by
  intro pairs
  induction pairs with
  | nil => intro st _; rfl
  | cons pr rest ih =>
    intro st h
    have hstep : addQAStep st pr = st := by
      simp only [addQAStep]
      split_ifs with hc hd
      · exfalso
        simp only [Bool.and_eq_true, decide_eq_true_eq] at hc
        have hdup := h pr (List.mem_cons_self _ _) hc.1 hc.2
        simp [hdup] at hd
      · rfl
      · rfl
    rw [List.foldl_cons, hstep]
    exact ih st (fun pr' hm => h pr' (List.mem_cons_of_mem _ hm))

/-- C6: ingesting a batch of Q&A pairs twice through `add_qa_pairs` adds
no duplicate records (duplicates detected by lowercased, stripped
question text): the second ingestion leaves both the record store and the
embedding cache exactly as after the first, and the number of stored
embeddings equals the number of stored records (given the engine started
with embeddings generated from its database, as `_regenerate_embeddings`
maintains). -/
theorem c6_reingest_noop :
    ∀ {E : Type} (embed : String → E) (pairs : List (String × String))
      (s : EngineState E),
      s.question_embeddings = regenerate_embeddings embed s.qa_database →
      (add_qa_pairs embed pairs (add_qa_pairs embed pairs s)).qa_database
          = (add_qa_pairs embed pairs s).qa_database
      ∧ (add_qa_pairs embed pairs (add_qa_pairs embed pairs s)).question_embeddings
          = (add_qa_pairs embed pairs s).question_embeddings
      ∧ (add_qa_pairs embed pairs s).question_embeddings.length
          = (add_qa_pairs embed pairs s).qa_database.length := by
  intro E embed pairs s hinv
  have hdb : (add_qa_pairs embed pairs s).qa_database
      = (pairs.foldl addQAStep (s.qa_database, 0)).1 := by
    simp only [add_qa_pairs, addQALoop]
    split_ifs <;> rfl
  have hdupall : ∀ pr ∈ pairs, pyStrip pr.1 ≠ "" → pyStrip pr.2 ≠ "" →
      is_duplicate_question (add_qa_pairs embed pairs s).qa_database
        (pyStrip pr.1) = true := by
    intro pr hm h1 h2
    rw [hdb]
    exact addLoop_dup_after pairs (s.qa_database, 0) pr hm h1 h2
  have hloop2 : addQALoop (add_qa_pairs embed pairs s).qa_database pairs
      = ((add_qa_pairs embed pairs s).qa_database, 0) := by
    unfold addQALoop
    exact addLoop_nochange pairs (_, 0) (fun pr hm h1 h2 => hdupall pr hm h1 h2)
  have hsecond : ∀ (s1 : EngineState E),
      addQALoop s1.qa_database pairs = (s1.qa_database, 0) →
      add_qa_pairs embed pairs s1 = ⟨s1.qa_database, s1.question_embeddings⟩ := by
    intro s1 hl
    simp only [add_qa_pairs]
    rw [hl]
    rfl
  have h2 := hsecond (add_qa_pairs embed pairs s) hloop2
  refine ⟨by rw [h2], by rw [h2], ?_⟩
  by_cases hc : (addQALoop s.qa_database pairs).2 > 0
  · have h1 : add_qa_pairs embed pairs s
        = ⟨(addQALoop s.qa_database pairs).1,
           regenerate_embeddings embed (addQALoop s.qa_database pairs).1⟩ := by
      unfold add_qa_pairs
      rw [if_pos hc]
    rw [h1]
    simp [regenerate_embeddings]
  · have h1 : add_qa_pairs embed pairs s
        = ⟨(addQALoop s.qa_database pairs).1, s.question_embeddings⟩ := by
      unfold add_qa_pairs
      rw [if_neg hc]
    have hcnt : (addQALoop s.qa_database pairs).2 = 0 := by omega
    obtain ⟨ext, hext⟩ := addLoop_prefix pairs (s.qa_database, 0)
    have hlen := addLoop_len pairs (s.qa_database, 0)
    have hfold : (addQALoop s.qa_database pairs).1
        = (pairs.foldl addQAStep (s.qa_database, 0)).1 := by
      unfold addQALoop
      rfl
    have hcnt2 : (pairs.foldl addQAStep (s.qa_database, 0)).2 = 0 := hcnt
    rw [hext, hcnt2] at hlen
    simp only [List.length_append] at hlen
    have hextnil : ext = [] := List.length_eq_zero.mp (by omega)
    rw [h1]
    rw [hfold, hext, hextnil, List.append_nil, hinv]
    simp [regenerate_embeddings]

/-- Witness for C6 on a fresh engine and a one-pair batch. -/
theorem c6_reingest_noop_witness :
    (add_qa_pairs (fun q => q) qaPairsW (add_qa_pairs (fun q => q) qaPairsW engineW)).qa_database
        = (add_qa_pairs (fun q => q) qaPairsW engineW).qa_database
    ∧ (add_qa_pairs (fun q => q) qaPairsW (add_qa_pairs (fun q => q) qaPairsW engineW)).question_embeddings
        = (add_qa_pairs (fun q => q) qaPairsW engineW).question_embeddings
    ∧ (add_qa_pairs (fun q => q) qaPairsW engineW).question_embeddings.length
        = (add_qa_pairs (fun q => q) qaPairsW engineW).qa_database.length :=
  c6_reingest_noop (fun q => q) qaPairsW engineW rfl

/-! ### C2: the resolver's strict tier priority -/

theorem pyArgmaxAux_lt :
    ∀ (xs : List ℚ) (i bi : ℕ) (bv : ℚ), bi < i →
      pyArgmaxAux i bi bv xs < i + xs.length := by
  intro xs
  induction xs with
  | nil =>
    intro i bi bv h
    simp only [pyArgmaxAux, List.length_nil, Nat.add_zero]
    exact h
  | cons x xs ih =>
    intro i bi bv h
    simp only [pyArgmaxAux, List.length_cons]
    split_ifs with hx
    · have := ih (i + 1) i x (by omega)
      omega
    · have := ih (i + 1) bi bv (by omega)
      omega

theorem pyArgmax_lt : ∀ (l : List ℚ), l ≠ [] → pyArgmax l < l.length := by
  intro l h
  match l, h with
  | x :: xs, _ =>
    show pyArgmaxAux 1 0 x xs < (x :: xs).length
    have := pyArgmaxAux_lt xs 1 0 x (by omega)
    simp only [List.length_cons]
    omega

theorem bestFuzzy_pos_some (fuz : String → String → ℚ) (q : String) :
    ∀ (db : List QARecord) (b : ℚ × Option QARecord),
      (0 < b.1 → b.2.isSome) →
      (0 < (db.foldl (fuzzyStep fuz q) b).1 → (db.foldl (fuzzyStep fuz q) b).2.isSome) := by
  intro db
  induction db with
  | nil => intro b h; exact h
  | cons qa rest ih =>
    intro b h
    simp only [List.foldl_cons]
    apply ih
    simp only [fuzzyStep]
    split_ifs with hr
    · intro _; rfl
    · exact h

theorem bestJaccard_pos_some (ukw : List String) :
    ∀ (db : List QARecord) (b : ℚ × Option QARecord),
      (0 < b.1 → b.2.isSome) →
      (0 < (db.foldl (jaccardStep ukw) b).1 → (db.foldl (jaccardStep ukw) b).2.isSome) := by
  intro db
  induction db with
  | nil => intro b h; exact h
  | cons qa rest ih =>
    intro b h
    simp only [List.foldl_cons]
    apply ih
    simp only [jaccardStep]
    split_ifs with h1 h2
    · intro _; rfl
    · exact h
    · exact h

/-- C2: `find_best_answer` returns at most one result (it is
`Option`-valued), always from the lowest-numbered tier whose threshold
was cleared — Tier 1 semantic at 0.65, else Tier 2 fuzzy at 0.70, else
Tier 3 keyword Jaccard at 0.3 — carrying that tier's own score and match
type, with no cross-tier mixing; an empty store yields no match at any
tier. -/
theorem c2_lowest_cleared_tier :
    (∀ (sem : List ℚ) (fuz : String → String → ℚ) (q : String),
       find_best_answer true [] sem fuz q = none)
    ∧ (∀ (db : List QARecord) (sem : List ℚ) (fuz : String → String → ℚ) (q : String),
        db ≠ [] → sem.length = db.length →
        ((sem.getD (pyArgmax sem) 0 ≥ 65/100 →
            ∃ qa : QARecord, db.get? (pyArgmax sem) = some qa
              ∧ find_best_answer true db sem fuz q
                  = some ⟨qa.answer, qa.question, sem.getD (pyArgmax sem) 0, "semantic",
                          calculate_confidence (sem.getD (pyArgmax sem) 0), qa.id⟩)
         ∧ (¬(sem.getD (pyArgmax sem) 0 ≥ 65/100) →
            (bestFuzzy fuz db (pyStrip q)).1 ≥ 7/10 →
            ∃ qa : QARecord, find_best_answer true db sem fuz q
                = some ⟨qa.answer, qa.question, (bestFuzzy fuz db (pyStrip q)).1, "fuzzy",
                        calculate_confidence ((bestFuzzy fuz db (pyStrip q)).1), qa.id⟩)
         ∧ (¬(sem.getD (pyArgmax sem) 0 ≥ 65/100) →
            ¬((bestFuzzy fuz db (pyStrip q)).1 ≥ 7/10) →
            dedupFirst (extract_keywords (pyStrip q)) ≠ [] →
            (bestJaccard db (dedupFirst (extract_keywords (pyStrip q)))).1 ≥ 3/10 →
            ∃ qa : QARecord, find_best_answer true db sem fuz q
                = some ⟨qa.answer, qa.question,
                        (bestJaccard db (dedupFirst (extract_keywords (pyStrip q)))).1,
                        "keyword",
                        calculate_confidence
                          ((bestJaccard db (dedupFirst (extract_keywords (pyStrip q)))).1 * (8/10)),
                        qa.id⟩)
         ∧ (¬(sem.getD (pyArgmax sem) 0 ≥ 65/100) →
            ¬((bestFuzzy fuz db (pyStrip q)).1 ≥ 7/10) →
            (dedupFirst (extract_keywords (pyStrip q)) = [] ∨
              ¬((bestJaccard db (dedupFirst (extract_keywords (pyStrip q)))).1 ≥ 3/10)) →
            find_best_answer true db sem fuz q = none))) := by
  constructor
  · intro sem fuz q
    rfl
  · intro db sem fuz q hdb hlen
    have hie : db.isEmpty = false := by
      cases db with
      | nil => exact absurd rfl hdb
      | cons a l => rfl
    have hfun : find_best_answer true db sem fuz q
        = (if sem.getD (pyArgmax sem) 0 ≥ 65/100 then
            match db.get? (pyArgmax sem) with
            | some qa =>
                some ⟨qa.answer, qa.question, sem.getD (pyArgmax sem) 0, "semantic",
                      calculate_confidence (sem.getD (pyArgmax sem) 0), qa.id⟩
            | none => none
          else
            match fuzzy_match_question fuz db (pyStrip q) with
            | some r => some r
            | none => keyword_match_question db (pyStrip q)) := by
      simp only [find_best_answer, hie, Bool.not_true, Bool.false_or, Bool.false_eq_true,
        if_false]
    have hfz : ∀ (h7 : (bestFuzzy fuz db (pyStrip q)).1 ≥ 7/10),
        ∃ qa : QARecord, (bestFuzzy fuz db (pyStrip q)).2 = some qa
          ∧ fuzzy_match_question fuz db (pyStrip q)
              = some ⟨qa.answer, qa.question, (bestFuzzy fuz db (pyStrip q)).1, "fuzzy",
                      calculate_confidence ((bestFuzzy fuz db (pyStrip q)).1), qa.id⟩ := by
      intro h7
      have hpos : 0 < (bestFuzzy fuz db (pyStrip q)).1 := lt_of_lt_of_le (by norm_num) h7
      have hsome := bestFuzzy_pos_some fuz (pyStrip q) db (0, none) (by intro h0; norm_num at h0) hpos
      obtain ⟨qa, hqa⟩ := Option.isSome_iff_exists.mp hsome
      have hqa2 : (bestFuzzy fuz db (pyStrip q)).2 = some qa := hqa
      refine ⟨qa, hqa2, ?_⟩
      simp only [fuzzy_match_question]
      rw [if_pos h7, hqa2]
    refine ⟨?_, ?_, ?_, ?_⟩
    · intro hbs
      have hsemne : sem ≠ [] := by
        intro hnil
        rw [hnil] at hlen
        exact hdb (List.length_eq_zero.mp hlen.symm)
      have hlt : pyArgmax sem < db.length := hlen ▸ pyArgmax_lt sem hsemne
      refine ⟨db.get ⟨pyArgmax sem, hlt⟩, List.get?_eq_get hlt, ?_⟩
      rw [hfun, if_pos hbs, List.get?_eq_get hlt]
    · intro hbs h7
      obtain ⟨qa, _, hfm⟩ := hfz h7
      refine ⟨qa, ?_⟩
      rw [hfun, if_neg hbs, hfm]
    · intro hbs h7 hukw h3
      have hfm : fuzzy_match_question fuz db (pyStrip q) = none := by
        simp only [fuzzy_match_question]
        rw [if_neg h7]
      have hpos : 0 < (bestJaccard db (dedupFirst (extract_keywords (pyStrip q)))).1 :=
        lt_of_lt_of_le (by norm_num) h3
      have hsome := bestJaccard_pos_some (dedupFirst (extract_keywords (pyStrip q))) db
        (0, none) (by intro h0; norm_num at h0) hpos
      obtain ⟨qa, hqa⟩ := Option.isSome_iff_exists.mp hsome
      have hqa2 : (bestJaccard db (dedupFirst (extract_keywords (pyStrip q)))).2 = some qa := hqa
      refine ⟨qa, ?_⟩
      rw [hfun, if_neg hbs, hfm]
      simp only [keyword_match_question]
      rw [if_neg hukw, if_pos h3, hqa2]
    · intro hbs h7 hno
      have hfm : fuzzy_match_question fuz db (pyStrip q) = none := by
        simp only [fuzzy_match_question]
        rw [if_neg h7]
      rw [hfun, if_neg hbs, hfm]
      rcases hno with hk | h3
      · simp only [keyword_match_question]
        rw [if_pos hk]
      · simp only [keyword_match_question]
        by_cases hk : dedupFirst (extract_keywords (pyStrip q)) = []
        · rw [if_pos hk]
        · rw [if_neg hk, if_neg h3]

/-- Witness for C2: a one-record store with a semantic score of 0.7
resolves at Tier 1. -/
theorem c2_lowest_cleared_tier_witness :
    ∃ qa, dbW.get? (pyArgmax [(7 : ℚ)/10]) = some qa
      ∧ find_best_answer true dbW [(7 : ℚ)/10] (fun _ _ => 0) "hello"
          = some ⟨qa.answer, qa.question, ([(7 : ℚ)/10]).getD (pyArgmax [(7 : ℚ)/10]) 0,
                  "semantic",
                  calculate_confidence (([(7 : ℚ)/10]).getD (pyArgmax [(7 : ℚ)/10]) 0), qa.id⟩ :=
  (c2_lowest_cleared_tier.2 dbW [(7 : ℚ)/10] (fun _ _ => 0) "hello"
    (by simp [dbW]) (by simp [dbW])).1
    (by show ([(7 : ℚ)/10]).getD (pyArgmax [(7 : ℚ)/10]) 0 ≥ 65/100; norm_num [pyArgmax, pyArgmaxAux])

/-! ### C8: the formality pass and casual contractions

The next lemmas show that `re.sub(r'\b..\b', .., flags=IGNORECASE)` as
embedded in `subWB` removes every word-boundary occurrence of its own
pattern and — under the computationally checked `chainOK` conditions —
cannot manufacture an occurrence of any table pattern either. -/

theorem isWordChar_of_ciEq (a b : Char) (h : ciEq a b = true) :
    isWordChar a = isWordChar b := by
  unfold ciEq at h
  have he : lowc a = lowc b := eq_of_beq h
  unfold isWordChar
  rw [he]

theorem agreeCI_append_false :
    ∀ (p s t : List Char), agreeCI p s = false → agreeCI p (s ++ t) = false := by
  intro p
  induction p with
  | nil => intro s t h; simp [agreeCI] at h
  | cons a as ih =>
    intro s t h
    cases s with
    | nil => simp [agreeCI] at h
    | cons b bs =>
      by_cases hc : ciEq a b = true
      · simp only [agreeCI, hc, Bool.true_and] at h
        simp only [List.cons_append, agreeCI, hc, Bool.true_and]
        exact ih bs t h
      · simp only [Bool.not_eq_true] at hc
        simp only [List.cons_append, agreeCI, hc, Bool.false_and]

theorem matchCI_false_of_agreeCI_false :
    ∀ (p t : List Char), agreeCI p t = false → matchCI p t = false := by
  intro p
  induction p with
  | nil => intro t h; simp [agreeCI] at h
  | cons a as ih =>
    intro t h
    cases t with
    | nil => rfl
    | cons b bs =>
      by_cases hc : ciEq a b = true
      · simp only [agreeCI, hc, Bool.true_and] at h
        simp only [matchCI, hc, Bool.true_and]
        exact ih bs h
      · simp only [Bool.not_eq_true] at hc
        simp only [matchCI, hc, Bool.false_and]

theorem tailsL_self : ∀ (l : List Char), l ∈ tailsL l := by
  intro l
  cases l with
  | nil => simp [tailsL]
  | cons c cs => simp [tailsL]

theorem tailsL_tail :
    ∀ (l : List Char) (a : Char) (as : List Char),
      (a :: as) ∈ tailsL l → as ∈ tailsL l := by
  intro l
  induction l with
  | nil =>
    intro a as h
    simp [tailsL] at h
  | cons c cs ih =>
    intro a as h
    simp only [tailsL, List.mem_cons] at h ⊢
    rcases h with h | h
    · have h2 : as = cs := by
        injection h with _ h2
      exact Or.inr (h2 ▸ tailsL_self cs)
    · exact Or.inr (ih a as h)

theorem wbAfter_eq_getD :
    ∀ (q t : List Char), q.length < t.length →
      wbAfter q t = !isWordChar (t.getD q.length ' ') := by
  intro q
  induction q with
  | nil =>
    intro t h
    cases t with
    | nil => simp at h
    | cons c cs => rfl
  | cons a as ih =>
    intro t h
    cases t with
    | nil => simp at h
    | cons b bs =>
      simp only [List.length_cons] at h
      show wbAfter as bs = _
      rw [ih bs (by omega)]
      rfl

theorem no_occ_in_rep (patA : List Char) :
    ∀ (s : List Char) (f : Bool) (R : List Char),
      wbOKfrom patA f s = true →
      hasWBOcc patA true R = false →
      hasWBOcc patA f (s ++ R) = false := by
  intro s
  induction s with
  | nil =>
    intro f R hok hR
    simp only [wbOKfrom] at hok
    rw [List.nil_append]
    cases f with
    | false => exact absurd hok (by simp)
    | true => exact hR
  | cons c cs ih =>
    intro f R hok hR
    simp only [wbOKfrom, Bool.and_eq_true] at hok
    obtain ⟨h1, h2⟩ := hok
    rw [List.cons_append]
    simp only [hasWBOcc]
    refine Bool.or_eq_false_iff.mpr ⟨?_, ih (isWordChar c) R h2 hR⟩
    unfold headTest
    cases f with
    | true => simp
    | false =>
      simp only [Bool.false_or, Bool.not_eq_true'] at h1
      have hag : agreeCI patA ((c :: cs) ++ R) = false :=
        agreeCI_append_false patA (c :: cs) R h1
      rw [List.cons_append] at hag
      rw [matchCI_false_of_agreeCI_false _ _ hag]
      simp

theorem flagAfter_cons (x : Char) (xs : List Char) (f : Bool) :
    flagAfter (x :: xs) f = flagAfter xs (isWordChar x) := by
  unfold flagAfter
  cases xs with
  | nil => rfl
  | cons y ys =>
    rw [List.getLast?_cons_cons]
    cases hg : (y :: ys).getLast? with
    | none =>
      rw [List.getLast?_eq_none_iff] at hg
      exact absurd hg (by simp)
    | some v => rfl

theorem hasWBOcc_append_false :
    ∀ (xs : List Char) (p : List Char) (f : Bool) (ys : List Char),
      hasWBOcc p f (xs ++ ys) = false →
      hasWBOcc p (flagAfter xs f) ys = false := by
  intro xs
  induction xs with
  | nil => intro p f ys h; exact h
  | cons x xs ih =>
    intro p f ys h
    rw [flagAfter_cons]
    apply ih
    rw [List.cons_append] at h
    simp only [hasWBOcc, Bool.or_eq_false_iff] at h
    exact h.2

theorem flagAfter_take_of_matchCI :
    ∀ (patS t : List Char) (f : Bool), patS ≠ [] → matchCI patS t = true →
      flagAfter (t.take patS.length) f = endFlag patS := by
  intro patS
  induction patS with
  | nil => intro t f h; exact absurd rfl h
  | cons p ps ih =>
    intro t f _ hm
    cases t with
    | nil => simp [matchCI] at hm
    | cons c cs =>
      simp only [matchCI, Bool.and_eq_true] at hm
      obtain ⟨hce, hm2⟩ := hm
      cases ps with
      | nil =>
        show flagAfter [c] f = endFlag [p]
        unfold flagAfter endFlag
        simp only [List.getLast?_singleton]
        exact (isWordChar_of_ciEq p c hce).symm
      | cons p2 ps2 =>
        have htake : (c :: cs).take (p :: p2 :: ps2).length
            = c :: cs.take (p2 :: ps2).length := rfl
        rw [htake, flagAfter_cons, ih cs (isWordChar c) (by simp) hm2]
        unfold endFlag
        rw [List.getLast?_cons_cons]

theorem matchWB_transfer (patA patS repS : List Char)
    (hsafe : allSuffixSafe patA repS = true)
    (hhead : (match repS.head? with | some c => isWordChar c | none => false) = true) :
    ∀ (n : ℕ) (t : List Char), t.length ≤ n →
      ∀ (q : List Char), q ∈ tailsL patA → ∀ (f : Bool),
        (matchCI q (subWB patS repS f t) && wbAfter q (subWB patS repS f t)) = true →
        (matchCI q t && wbAfter q t) = true := by
  intro n
  induction n with
  | zero =>
    intro t ht q hq f h
    have hnil : t = [] := List.length_eq_zero.mp (Nat.le_zero.mp ht)
    subst hnil
    simp only [subWB] at h
    exact h
  | succ n ih =>
    intro t ht q hq f h
    cases t with
    | nil =>
      simp only [subWB] at h
      exact h
    | cons c cs =>
      by_cases hh : headTest patS f (c :: cs) = true
      · rw [show subWB patS repS f (c :: cs)
            = repS ++ subWB patS repS (endFlag repS) (cs.drop (patS.length - 1)) from by
          simp only [subWB]; rw [if_pos hh]] at h
        cases q with
        | nil =>
          exfalso
          cases repS with
          | nil => simp at hhead
          | cons r rs =>
            simp only [List.head?] at hhead
            rw [List.cons_append] at h
            simp only [matchCI, wbAfter, Bool.true_and, hhead] at h
            simp at h
        | cons a as =>
          exfalso
          have hbj : blockJunction (a :: as) repS = true := by
            have h' := (List.all_eq_true.mp hsafe) (a :: as) hq
            simpa using h'
          simp only [blockJunction, Bool.or_eq_true, Bool.and_eq_true,
            Bool.not_eq_true', decide_eq_true_eq] at hbj
          rcases hbj with hag | ⟨hlt, hw⟩
          · have hmf := matchCI_false_of_agreeCI_false (a :: as)
              (repS ++ subWB patS repS (endFlag repS) (List.drop (patS.length - 1) cs))
              (agreeCI_append_false (a :: as) repS
                (subWB patS repS (endFlag repS) (List.drop (patS.length - 1) cs)) hag)
            rw [hmf] at h
            simp at h
          · have hltapp : (a :: as).length < (repS ++ subWB patS repS (endFlag repS)
                (cs.drop (patS.length - 1))).length := by
              rw [List.length_append]
              omega
            have hwb := wbAfter_eq_getD (a :: as) _ hltapp
            rw [List.getD_append _ _ _ _ hlt] at hwb
            rw [hwb, hw] at h
            simp at h
      · rw [show subWB patS repS f (c :: cs)
            = c :: subWB patS repS (isWordChar c) cs from by
          simp only [subWB]; rw [if_neg hh]] at h
        cases q with
        | nil =>
          simp only [matchCI, wbAfter, Bool.true_and] at h ⊢
          exact h
        | cons a as =>
          simp only [matchCI, wbAfter, Bool.and_eq_true] at h ⊢
          obtain ⟨⟨hce, hmt⟩, hwb⟩ := h
          have := ih cs (by simpa using Nat.le_of_succ_le_succ (by simpa using ht))
            as (tailsL_tail patA a as hq) (isWordChar c)
            (by rw [hmt, hwb]; rfl)
          simp only [Bool.and_eq_true] at this
          exact ⟨⟨hce, this.1⟩, this.2⟩

theorem subWB_no_occ (patA patS repS : List Char)
    (hOK : chainOK patA patS repS = true) :
    ∀ (n : ℕ) (t : List Char), t.length ≤ n → ∀ (f : Bool),
      (patA = patS ∨ hasWBOcc patA f t = false) →
      hasWBOcc patA f (subWB patS repS f t) = false := by
  simp only [chainOK, Bool.and_eq_true] at hOK
  obtain ⟨⟨⟨⟨⟨⟨⟨hpa, hps⟩, hrs⟩, hrh⟩, hre⟩, hpe⟩, hsafe⟩, hwb⟩ := hOK
  intro n
  induction n with
  | zero =>
    intro t ht f _
    have hnil : t = [] := List.length_eq_zero.mp (Nat.le_zero.mp ht)
    subst hnil
    simp only [subWB]
    rfl
  | succ n ih =>
    intro t ht f hdisj
    cases t with
    | nil =>
      simp only [subWB]
      rfl
    | cons c cs =>
      have hlcs : cs.length ≤ n := by
        simpa using Nat.le_of_succ_le_succ (by simpa using ht)
      by_cases hh : headTest patS f (c :: cs) = true
      · have hf : f = false := by
          unfold headTest at hh
          cases f with
          | false => rfl
          | true => simp at hh
        subst hf
        have hsub : subWB patS repS false (c :: cs)
            = repS ++ subWB patS repS (endFlag repS) (cs.drop (patS.length - 1)) := by
          simp only [subWB]; rw [if_pos hh]
        rw [hsub, hre]
        apply no_occ_in_rep patA repS false _ hwb
        apply ih (cs.drop (patS.length - 1))
          (le_trans (by rw [List.length_drop]; omega) hlcs)
        rcases hdisj with heq | hno
        · exact Or.inl heq
        · right
          have hmat : matchCI patS (c :: cs) = true := by
            unfold headTest at hh
            simp only [Bool.and_eq_true] at hh
            exact hh.1.2
          have hpsne : patS ≠ [] := by
            intro hnil
            rw [hnil] at hps
            simp at hps
          have hdropeq : (c :: cs).drop patS.length = cs.drop (patS.length - 1) := by
            cases patS with
            | nil => exact absurd rfl hpsne
            | cons x xs => rfl
          have hsplit : (c :: cs)
              = (c :: cs).take patS.length ++ cs.drop (patS.length - 1) := by
            rw [← hdropeq, List.take_append_drop]
          rw [hsplit] at hno
          have hocc := hasWBOcc_append_false _ patA false _ hno
          rw [flagAfter_take_of_matchCI patS (c :: cs) false hpsne hmat, hpe] at hocc
          exact hocc
      · have hsub : subWB patS repS f (c :: cs)
            = c :: subWB patS repS (isWordChar c) cs := by
          simp only [subWB]; rw [if_neg hh]
        rw [hsub]
        simp only [hasWBOcc]
        refine Bool.or_eq_false_iff.mpr ⟨?_, ?_⟩
        · cases hf : f with
          | true => simp [headTest]
          | false =>
            subst hf
            by_cases hcontra :
                headTest patA false (c :: subWB patS repS (isWordChar c) cs) = true
            · exfalso
              unfold headTest at hcontra
              simp only [Bool.not_false, Bool.true_and] at hcontra
              rw [← hsub] at hcontra
              have htrans := matchWB_transfer patA patS repS hsafe hrh (n + 1)
                (c :: cs) ht patA (tailsL_self patA) false hcontra
              rcases hdisj with heq | hno
              · subst heq
                apply hh
                unfold headTest
                simpa using htrans
              · simp only [hasWBOcc, Bool.or_eq_false_iff] at hno
                have hht := hno.1
                unfold headTest at hht
                simp only [Bool.not_false, Bool.true_and] at hht
                rw [htrans] at hht
                exact absurd hht (by simp)
            · simpa using hcontra
        · apply ih cs hlcs
          rcases hdisj with heq | hno
          · exact Or.inl heq
          · right
            simp only [hasWBOcc, Bool.or_eq_false_iff] at hno
            exact hno.2

theorem foldl_subStepStr_data :
    ∀ (l : List (String × String)) (t : String),
      (l.foldl subStepStr t).data
        = l.foldl (fun r p => subWB p.1.data p.2.data false r) t.data := by
  intro l
  induction l with
  | nil => intro t; rfl
  | cons p ps ih =>
    intro t
    simp only [List.foldl_cons]
    rw [ih]
    rfl

theorem subWB_fold_no_occ (patA : List Char) :
    ∀ (l : List (String × String)) (t : List Char),
      hasWBOcc patA false t = false →
      (∀ pr ∈ l, chainOK patA pr.1.data pr.2.data = true) →
      hasWBOcc patA false
        (l.foldl (fun r p => subWB p.1.data p.2.data false r) t) = false := by
  intro l
  induction l with
  | nil => intro t h _; exact h
  | cons pr rest ih =>
    intro t h hOK
    simp only [List.foldl_cons]
    apply ih
    · exact subWB_no_occ patA pr.1.data pr.2.data
        (hOK pr (List.mem_cons_self _ _)) t.length t (le_refl _) false (Or.inr h)
    · exact fun q hq => hOK q (List.mem_cons_of_mem _ hq)

theorem fold_table_no_occ :
    ∀ (l : List (String × String)), tableOK l = true →
      ∀ pr ∈ l, ∀ (t : List Char),
        hasWBOcc pr.1.data false
          (l.foldl (fun r p => subWB p.1.data p.2.data false r) t) = false := by
  intro l
  induction l with
  | nil => intro _ pr hpr; cases hpr
  | cons p rest ih =>
    intro hok pr hpr t
    simp only [tableOK, Bool.and_eq_true] at hok
    obtain ⟨⟨hself, hsuf⟩, hrest⟩ := hok
    simp only [List.foldl_cons]
    rcases List.mem_cons.mp hpr with he | hm
    · subst he
      apply subWB_fold_no_occ pr.1.data rest
      · exact subWB_no_occ pr.1.data pr.1.data pr.2.data hself
          t.length t (le_refl _) false (Or.inl rfl)
      · exact fun q hq => (List.all_eq_true.mp hsuf) q hq
    · exact ih hrest pr hm (subWB p.1.data p.2.data false t)

/-- C8 (amended): shaping a response under a profile with formality 0.9
runs the formal-expansion pass, after which no word-boundary occurrence
of any of the engine's seven tabled contractions (`don\x27t`,
`can\x27t`, `won\x27t`, `shouldn\x27t`, `wouldn\x27t`, `it\x27s`,
`that\x27s`) remains in the styled text (stated here with the warmth and
detail passes not firing, i.e. empathy and detail orientation at most
0.8, so that the styling is exactly the formality pass); contractions
outside that table, such as `I\x27m`, are NOT removed, so the original
claim that the output contains no casual contractions at all fails (see
the counterexample). -/
theorem c8_formality_expands_table :
    ∀ (base : String) (prof : PersonalityProfile) (ea : EmotionAnalysis),
      prof.formality_level = 9/10 → prof.empathy_level ≤ 8/10 →
      prof.detail_orientation ≤ 8/10 →
      ∀ pr ∈ formal_replacements,
        hasWBOcc pr.1.data false (apply_personality_style base prof ea).data = false := by
  intro base prof ea hf he hd pr hpr
  have hstyle : apply_personality_style base prof ea = make_more_formal base := by
    unfold apply_personality_style
    rw [hf]
    have h1 : ¬((9 : ℚ)/10 < 3/10) := by norm_num
    have h2 : (9 : ℚ)/10 > 7/10 := by norm_num
    have hdec : decide (prof.empathy_level > 8/10) = false := by
      simp only [decide_eq_false_iff_not]
      exact not_lt.mpr he
    have h4 : ¬(prof.detail_orientation > 8/10) := not_lt.mpr hd
    simp only [if_neg h1, if_pos h2, hdec, Bool.false_and, Bool.false_eq_true,
      if_false, if_neg h4]
  rw [hstyle]
  show hasWBOcc pr.1.data false (formal_replacements.foldl subStepStr base).data = false
  rw [foldl_subStepStr_data]
  exact fold_table_no_occ formal_replacements (by decide) pr hpr base.data

/-- Witness for C8's amended theorem at a concrete profile and base
text. -/
theorem c8_formality_expands_table_witness :
    hasWBOcc ("don\x27t").data false
      (apply_personality_style "You don\x27t need to panic" profFormal
        (testEA "neutral")).data = false :=
  c8_formality_expands_table "You don\x27t need to panic" profFormal (testEA "neutral")
    (by norm_num [profFormal]) (by norm_num [profFormal]) (by norm_num [profFormal])
    ("don\x27t", "do not") (by simp [formal_replacements])

set_option maxRecDepth 100000 in
set_option maxHeartbeats 2000000 in
/-- Counterexample for C8 as stated: the casual contraction I\x27m is not in
the seven-entry `formal_replacements` table, so the full
generate_personality_enhanced_response pipeline on a formal, low-humor,
low-empathy mentor profile leaves it in the output verbatim — the spec's
promise that ALL casual contractions are expanded fails. -/
theorem c8_contraction_survives :
    ("I\x27m" ∈ casualContractions)
    ∧ containsCasualContraction
        (generate_personality_enhanced_response
          (fun b => Except.ok (personalityPipeline rndZero "knowledgeable_mentor" profFormal
            (testEA "neutral") "ongoing" b))
          "I\x27m here to help you") = true := by
  refine ⟨by decide, ?_⟩
  have hpipe : personalityPipeline rndZero "knowledgeable_mentor" profFormal
      (testEA "neutral") "ongoing" "I\x27m here to help you" = "I\x27m here to help you" := by
    simp +decide [personalityPipeline, apply_emotional_modifiers, add_personality_elements,
      apply_personality_style, make_more_formal, make_more_casual, add_warmth_markers,
      enhance_detail_structure, add_appropriate_humor, pyChoice, subStepStr, subWBStr, subWB,
      headTest, matchCI, wbAfter, endFlag, ciEq, lowc, isWordChar, wordLower,
      formal_replacements, casual_replacements, warmth_markers, profFormal, testEA, rndZero,
      personality_modifiers, response_templates, lookupA]
    norm_num
  simp only [generate_personality_enhanced_response, hpipe]
  decide

end Theorems

end DigiRaksha
